import Mathlib

/-! Password policy and strength engine.

A shallow embedding of `src/public/password-security.js` (class
`PasswordSecurityManager`) and of `validatePolicies` from
`src/public/password-policy-admin.js`, followed by theorems about it.

Conventions of the embedding.

* A JavaScript string is the list of its UTF-16 code units; `length`,
  `substring`, `indexOf`, `includes`, `charAt` and the regular expressions
  (none of which carries the `u` flag) all work on code units.
* Numbers held by the policy object and the score are integers (`Int`);
  `NaN` is not represented.
* `String.prototype.toLowerCase` is a built-in of the host; the functions
  that call it take it as the argument `toLowerCase`.
* `Math.random` and the comparator-driven shuffle are resolved by explicit
  arguments (`rand`, `shuffle`), `localStorage` by a record of the parsed
  entries the manager reads.
-/

namespace PasswordSecurity

/-! ## JavaScript strings -/

/-- A UTF-16 code unit. -/
abbrev CodeUnit := Fin 65536

/-- A JavaScript string: a finite sequence of UTF-16 code units. -/
abbrev JSString := List CodeUnit

/-- UTF-16 encoding of one Unicode scalar value. -/
def utf16 (c : Char) : List CodeUnit :=
  if c.toNat < 65536 then [Fin.ofNat c.toNat]
  else [Fin.ofNat (55296 + (c.toNat - 65536) / 1024), Fin.ofNat (56320 + (c.toNat - 65536) % 1024)]

/-- The JavaScript string denoted by a string literal of the source. -/
def js (s : String) : JSString :=
  s.toList.foldr (fun c acc => utf16 c ++ acc) []

/-- Template-literal rendering of an integer-valued number: its decimal
digits, which is what the host prints for an integer of magnitude below
`10^21` that a double holds exactly. -/
def numberToString (n : Int) : JSString :=
  js (toString n)

/-- True when `t` is a prefix of `s`. -/
def startsWith : JSString → JSString → Bool
  | _, [] => true
  | [], _ :: _ => false
  | a :: s, b :: t => a == b && startsWith s t

/-- Port of `s.includes(t)`: `t` occurs in `s` as a contiguous run of code units. -/
def includes : JSString → JSString → Bool
  | [], t => startsWith [] t
  | a :: s, t => startsWith (a :: s) t || includes s t

/-- Scan of `indexOf`: `s` is what remains of the string from index `pos` on. -/
def indexOfAux (t : JSString) : JSString → Nat → Int
  | [], pos => if startsWith [] t then (pos : Int) else -1
  | a :: s, pos => if startsWith (a :: s) t then (pos : Int) else indexOfAux t s (pos + 1)

/-- Port of `s.indexOf(t, position)`: the first index at or after `position` where
`t` occurs, or `-1`. -/
def indexOf (s t : JSString) (position : Nat) : Int :=
  let start := min position s.length
  indexOfAux t (s.drop start) start

/-- Port of `s.substring(a, b)`: both arguments are clamped to the length and swapped
when out of order. -/
def substring (s : JSString) (a b : Nat) : JSString :=
  let fa := min a s.length
  let fb := min b s.length
  (s.drop (min fa fb)).take (max fa fb - min fa fb)

/-- Port of `s.charAt(i)`: the one-unit string at index `i`, the empty string when
`i` is out of range. -/
def charAt (s : JSString) (i : Nat) : JSString :=
  match s.get? i with
  | some c => [c]
  | none => []

/-! ## Regular expressions made of one character class -/

/-- A compiled character class: a list of inclusive code-unit ranges. -/
abbrev CharClass := List (CodeUnit × CodeUnit)

/-- A code unit matches the class when it lies in one of its ranges. -/
def inClass (cls : CharClass) (c : CodeUnit) : Bool :=
  cls.any fun r => decide (r.1 ≤ c) && decide (c ≤ r.2)

/-- Port of `regex.test(s)` for a one-class regular expression. -/
def regexTest (cls : CharClass) (s : JSString) : Bool :=
  s.any (inClass cls)

/-- Port of `s.match(regex)` for a one-class regular expression created without the
`g` flag: `null` when no unit matches, otherwise the match array of the
first match, whose only element is the matched text. -/
def stringMatch (s : JSString) (cls : CharClass) : Option (List JSString) :=
  match s.find? (inClass cls) with
  | some c => some [[c]]
  | none => none

/-- The class of `/[A-Z]/`. -/
def upperClass : CharClass := [(65, 90)]

/-- The class of `/[a-z]/`. -/
def lowerClass : CharClass := [(97, 122)]

/-- The class of `/[0-9]/`. -/
def digitClass : CharClass := [(48, 57)]

/-- One class atom at the head of a class body: a backslash followed by a
unit denotes that unit (identity escape, the only escape `escapeRegex`
emits), any other unit denotes itself. -/
def classAtom : JSString → Option (CodeUnit × JSString)
  | [] => none
  | c :: rest =>
    if c = 92 then
      match rest with
      | [] => none
      | d :: rest2 => some (d, rest2)
    else some (c, rest)

/-- The ranges of a class body (the text between `[` and `]`), read left to
right as the pattern grammar does: an atom, a dash and an atom form a range,
an atom alone stands for itself, and a dash with no atom after it is
literal. Every step consumes at least one unit, so `body.length` is enough
fuel. -/
def classRanges : Nat → JSString → CharClass
  | 0, _ => []
  | fuel + 1, body =>
    match classAtom body with
    | none => []
    | some (a, rest) =>
      match rest with
      | [] => [(a, a)]
      | dash :: rest1 =>
        if dash = 45 then
          match classAtom rest1 with
          | some (b, rest2) => (a, b) :: classRanges fuel rest2
          | none => [(a, a), (45, 45)]
        else (a, a) :: classRanges fuel rest

/-- The class compiled by `new RegExp("[" + body + "]")`. -/
def newRegExpClass (body : JSString) : CharClass :=
  classRanges body.length body

/-- The units matched by the class in `escapeRegex`, `/[.*+?^$\x7b\x7d()|[\]\\]/g`. -/
def regexMetaChars : JSString :=
  js ".*+?^$\x7b\x7d()|[]\\"

/-- Port of `escapeRegex`: every regex metacharacter gets a backslash in
front of it. -/
def escapeRegex (string : JSString) : JSString :=
  string.foldr (fun c acc => (if c ∈ regexMetaChars then [92, c] else [c]) ++ acc) []

/-! ## The manager's configuration -/

/-- The `policies` object of the manager. Its numeric fields are integers,
as in the constructor and in the specification's data model; a field that
`parseInt` of an emptied form input would set to `NaN` is outside this
type, so every statement about a policy is a statement about integer-valued
policies. -/
structure Policies where
  minLength : Int
  maxLength : Int
  requireUppercase : Bool
  requireLowercase : Bool
  requireNumbers : Bool
  requireSpecialChars : Bool
  minSpecialChars : Int
  preventCommonPasswords : Bool
  preventUserInfo : Bool
  preventReuse : Int
  maxAge : Int
  warningDays : Int
  lockoutAttempts : Int
  lockoutDuration : Int
  deriving DecidableEq

/-- The policies assigned by the constructor. -/
def defaultPolicies : Policies :=
  { minLength := 12
    maxLength := 128
    requireUppercase := true
    requireLowercase := true
    requireNumbers := true
    requireSpecialChars := true
    minSpecialChars := 2
    preventCommonPasswords := true
    preventUserInfo := true
    preventReuse := 5
    maxAge := 90
    warningDays := 14
    lockoutAttempts := 5
    lockoutDuration := 30 }

/-- The default policies with the three letter and digit requirements
switched off. -/
def noClassPolicies : Policies :=
  { defaultPolicies with
    requireUppercase := false
    requireLowercase := false
    requireNumbers := false }

/-- The field `specialChars`, assigned once by the constructor. -/
def specialChars : JSString :=
  js "!@#$%^&*()_+-=[]\x7b\x7d|;:,.<>?"

/-- The field `commonPasswords`, assigned once by the constructor. -/
def commonPasswords : List JSString :=
  [js "password", js "123456", js "123456789", js "qwerty", js "abc123",
   js "password123", js "admin", js "letmein", js "welcome", js "monkey",
   js "dragon", js "master", js "shadow", js "superman", js "michael",
   js "football", js "baseball", js "liverpool", js "jordan", js "harley"]

/-- The `userInfo` argument: an object whose fields may be missing. -/
structure UserInfo where
  firstName : Option JSString := none
  lastName : Option JSString := none
  email : Option JSString := none
  username : Option JSString := none
  userId : Option JSString := none
  deriving DecidableEq

/-- Truthiness of an optional string: present and not empty. -/
def truthy : Option JSString → Bool
  | some (_ :: _) => true
  | _ => false

/-- The parsed object kept under `passwordInfo_<userId>`. -/
structure PasswordInfo where
  lastChanged : Int
  changeCount : Int
  deriving DecidableEq

/-- The entries of `localStorage` the manager reads, already parsed:
`passwordHistory_<userId>` and `passwordInfo_<userId>`, `none` when the key
is absent. -/
structure LocalStorage where
  passwordHistory : JSString → Option (List JSString)
  passwordInfo : JSString → Option PasswordInfo

/-- A storage without any entry. -/
def emptyStorage : LocalStorage :=
  { passwordHistory := fun _ => none
    passwordInfo := fun _ => none }

/-- Port of `getPasswordHistory`. -/
def getPasswordHistory (storage : LocalStorage) (userId : JSString) : List JSString :=
  match storage.passwordHistory userId with
  | some history => history
  | none => []

/-- Port of `getPasswordInfo`. -/
def getPasswordInfo (storage : LocalStorage) (userId : JSString) : Option PasswordInfo :=
  storage.passwordInfo userId

/-! ## Double-precision arithmetic used by the variety bonus -/

/-- The literal `0.7` is the double `6305039478318694 / 2^53`. -/
def double07 : Nat := 6305039478318694

/-- Number of low bits that must go for `a` to fit in 53 bits (`a` itself is
enough fuel). -/
def excessBits : Nat → Nat → Nat
  | 0, _ => 0
  | fuel + 1, a => if a < 2 ^ 53 then 0 else 1 + excessBits fuel (a / 2)

/-- Rounding of a natural number to 53 significant bits, to nearest with
ties to even: the rounding of IEEE 754 double arithmetic. -/
def roundTo53 (a : Nat) : Nat :=
  let k := excessBits a a
  let q := a / 2 ^ k
  let r := a % 2 ^ k
  let m := if 2 * r < 2 ^ k then q else if 2 ^ k < 2 * r then q + 1 else if q % 2 = 0 then q else q + 1
  m * 2 ^ k

/-- The double `length * 0.7`, in units of `2^-53`: the exact product of the
integer `length` with the double `0.7`, rounded once. -/
def timesDouble07 (length : Nat) : Nat :=
  roundTo53 (length * double07)

/-! ## Pattern detectors -/

/-- Is the unit a lead (high) surrogate? -/
def isLeadSurrogate (c : CodeUnit) : Bool :=
  decide (55296 ≤ c.val) && decide (c.val ≤ 56319)

/-- Is the unit a trail (low) surrogate? -/
def isTrailSurrogate (c : CodeUnit) : Bool :=
  decide (56320 ≤ c.val) && decide (c.val ≤ 57343)

/-- The string iterator: the code points of a string, a lead surrogate
followed by a trail surrogate being one code point and any other unit a code
point of its own. The first argument is a lead surrogate read but not yet
emitted. -/
def codePointsAux : Option CodeUnit → JSString → List Nat
  | none, [] => []
  | some h, [] => [h.val]
  | none, c :: cs =>
    if isLeadSurrogate c then codePointsAux (some c) cs
    else c.val :: codePointsAux none cs
  | some h, c :: cs =>
    if isTrailSurrogate c then
      (65536 + (h.val - 55296) * 1024 + (c.val - 56320)) :: codePointsAux none cs
    else if isLeadSurrogate c then h.val :: codePointsAux (some c) cs
    else h.val :: c.val :: codePointsAux none cs

/-- The elements a string hands to `new Set(...)`: one per code point. -/
def codePoints (s : JSString) : List Nat :=
  codePointsAux none s

/-- Port of `Set.prototype.add`: a value already present is not added again. -/
def setAdd (set : List Nat) (x : Nat) : List Nat :=
  if x ∈ set then set else set ++ [x]

/-- The value `new Set(password).size`. -/
def uniqueCharCount (password : JSString) : Nat :=
  ((codePoints password).foldl setAdd []).length

/-- Port of `hasRepeatingPatterns`: the loop runs `i` over `0 .. length - 3`
and returns at the first window of three units that occurs again at an index
of at least `i + 1`. -/
def hasRepeatingPatterns (password : JSString) : Bool :=
  (List.range password.length).any fun i =>
    decide ((i : Int) ≤ (password.length : Int) - 3) &&
      decide (indexOf password (substring password i (i + 3)) (i + 1) ≠ -1)

/-- The array `sequences` of `hasSequentialChars`. -/
def sequences : List JSString :=
  [js "abc", js "123", js "qwe", js "asd", js "zxc"]

/-- Port of `hasSequentialChars`. -/
def hasSequentialChars (toLowerCase : JSString → JSString) (password : JSString) : Bool :=
  let lowerPassword := toLowerCase password
  sequences.any fun seq => includes lowerPassword seq || includes lowerPassword seq.reverse

/-- Port of `calculateComplexityBonus`. -/
def calculateComplexityBonus (toLowerCase : JSString → JSString) (password : JSString) : Int :=
  let bonus : Int := 0
  let bonus := if 16 ≤ password.length then bonus + 10 else bonus
  let bonus := if 20 ≤ password.length then bonus + 5 else bonus
  let uniqueChars := uniqueCharCount password
  let bonus := if timesDouble07 password.length ≤ uniqueChars * 2 ^ 53 then bonus + 10 else bonus
  let bonus := if !hasRepeatingPatterns password then bonus + 5 else bonus
  let bonus := if !hasSequentialChars toLowerCase password then bonus + 5 else bonus
  min bonus 15

/-- Port of `getStrengthLabel`. -/
def getStrengthLabel (score : Int) : JSString :=
  if 90 ≤ score then js "Excellent"
  else if 75 ≤ score then js "Strong"
  else if 60 ≤ score then js "Good"
  else if 40 ≤ score then js "Fair"
  else if 20 ≤ score then js "Weak"
  else js "Very Weak"

/-- Port of `isCommonPassword`. -/
def isCommonPassword (toLowerCase : JSString → JSString) (password : JSString) : Bool :=
  let lowerPassword := toLowerCase password
  commonPasswords.any fun common => includes lowerPassword common || includes common lowerPassword

/-- The array `checkFields` of `containsUserInfo`, as field accessors. -/
def checkFields : List (UserInfo → Option JSString) :=
  [UserInfo.firstName, UserInfo.lastName, UserInfo.email, UserInfo.username]

/-- Port of `containsUserInfo`; the argument is `none` for a `null` or
`undefined` identity. -/
def containsUserInfo (toLowerCase : JSString → JSString) (password : JSString)
    (userInfo : Option UserInfo) : Bool :=
  match userInfo with
  | none => false
  | some info =>
    let lowerPassword := toLowerCase password
    checkFields.any fun field =>
      if truthy (field info) then
        let value := toLowerCase ((field info).getD [])
        includes lowerPassword value || includes value lowerPassword
      else false

/-- Port of `comparePasswords`. -/
def comparePasswords (password1 password2 : JSString) : Bool :=
  decide (password1 = password2)

/-- Port of `isPasswordReused`. -/
def isPasswordReused (storage : LocalStorage) (password : JSString)
    (userId : Option JSString) : Bool :=
  if !truthy userId then false
  else
    let history := getPasswordHistory storage (userId.getD [])
    history.any fun oldPassword => comparePasswords password oldPassword

/-- Port of `generateSuggestions`. -/
def generateSuggestions (_password : JSString) (issues : List JSString) : List JSString :=
  let suggestions : List JSString := []
  let suggestions :=
    if issues.any fun issue => includes issue (js "length") then
      suggestions ++ [js "Try using a passphrase with multiple words",
        js "Add more characters to meet minimum length requirement"]
    else suggestions
  let suggestions :=
    if issues.any fun issue => includes issue (js "uppercase") then
      suggestions ++ [js "Add at least one uppercase letter (A-Z)"]
    else suggestions
  let suggestions :=
    if issues.any fun issue => includes issue (js "lowercase") then
      suggestions ++ [js "Add at least one lowercase letter (a-z)"]
    else suggestions
  let suggestions :=
    if issues.any fun issue => includes issue (js "number") then
      suggestions ++ [js "Include at least one number (0-9)"]
    else suggestions
  let suggestions :=
    if issues.any fun issue => includes issue (js "special") then
      suggestions ++ [js "Add special characters like: " ++ substring specialChars 0 10 ++ js "..."]
    else suggestions
  let suggestions :=
    if issues.any fun issue => includes issue (js "common") then
      suggestions ++ [js "Avoid common passwords and dictionary words",
        js "Create a unique combination of words and characters"]
    else suggestions
  let suggestions :=
    if issues.any fun issue => includes issue (js "personal") then
      suggestions ++ [js "Avoid using your name, email, or other personal information"]
    else suggestions
  suggestions

/-! ## Validation -/

/-- The object `results` built and returned by `validatePassword`. -/
structure Results where
  isValid : Bool
  score : Int
  strength : JSString
  issues : List JSString
  suggestions : List JSString
  deriving DecidableEq

/-- The too-short issue text. -/
def tooShortIssue (policies : Policies) : JSString :=
  js "Password must be at least " ++ numberToString policies.minLength ++ js " characters long"

/-- The too-long issue text. -/
def tooLongIssue (policies : Policies) : JSString :=
  js "Password must not exceed " ++ numberToString policies.maxLength ++ js " characters"

/-- The missing-uppercase issue text. -/
def missingUppercaseIssue : JSString :=
  js "Password must contain at least one uppercase letter"

/-- The missing-lowercase issue text. -/
def missingLowercaseIssue : JSString :=
  js "Password must contain at least one lowercase letter"

/-- The missing-number issue text. -/
def missingNumberIssue : JSString :=
  js "Password must contain at least one number"

/-- The insufficient-special-characters issue text. -/
def insufficientSpecialIssue (policies : Policies) : JSString :=
  js "Password must contain at least " ++ numberToString policies.minSpecialChars ++
    js " special characters"

/-- The common-password issue text. -/
def commonPasswordIssue : JSString :=
  js "Password is too common. Please choose a more unique password"

/-- The personal-information issue text. -/
def personalInfoIssue : JSString :=
  js "Password should not contain personal information"

/-- The password-reused issue text. -/
def passwordReusedIssue (policies : Policies) : JSString :=
  js "Password cannot be one of your last " ++ numberToString policies.preventReuse ++
    js " passwords"

/-- The statement `results.issues.push(issue)`. -/
def pushIssue (results : Results) (issue : JSString) : Results :=
  { results with issues := results.issues ++ [issue] }

/-- The statement `results.score += points`. -/
def addScore (results : Results) (points : Int) : Results :=
  { results with score := results.score + points }

/-- Lines 54-58: the minimum-length check. -/
def minLengthCheck (policies : Policies) (password : JSString) (results : Results) : Results :=
  if (password.length : Int) < policies.minLength then pushIssue results (tooShortIssue policies)
  else if (password.length : Int) ≥ policies.minLength then addScore results 20
  else results

/-- Lines 60-62: the maximum-length check. -/
def maxLengthCheck (policies : Policies) (password : JSString) (results : Results) : Results :=
  if (password.length : Int) > policies.maxLength then pushIssue results (tooLongIssue policies)
  else results

/-- Lines 65-69: the uppercase check. -/
def uppercaseCheck (policies : Policies) (password : JSString) (results : Results) : Results :=
  if policies.requireUppercase && !regexTest upperClass password then
    pushIssue results missingUppercaseIssue
  else if regexTest upperClass password then addScore results 15
  else results

/-- Lines 71-75: the lowercase check. -/
def lowercaseCheck (policies : Policies) (password : JSString) (results : Results) : Results :=
  if policies.requireLowercase && !regexTest lowerClass password then
    pushIssue results missingLowercaseIssue
  else if regexTest lowerClass password then addScore results 15
  else results

/-- Lines 77-81: the digit check. -/
def numbersCheck (policies : Policies) (password : JSString) (results : Results) : Results :=
  if policies.requireNumbers && !regexTest digitClass password then
    pushIssue results missingNumberIssue
  else if regexTest digitClass password then addScore results 15
  else results

/-- The regular expression `specialCharRegex` of line 84. -/
def specialCharRegex : CharClass :=
  newRegExpClass (escapeRegex specialChars)

/-- The value `specialCharCount` of line 85:
`(password.match(specialCharRegex) || []).length`. -/
def specialCharCount (password : JSString) : Nat :=
  ((stringMatch password specialCharRegex).getD []).length

/-- Lines 83-92: the special-character check. -/
def specialCharsCheck (policies : Policies) (password : JSString) (results : Results) : Results :=
  if policies.requireSpecialChars then
    if (specialCharCount password : Int) < policies.minSpecialChars then
      pushIssue results (insufficientSpecialIssue policies)
    else addScore results 20
  else results

/-- Lines 95-97: the common-password check. -/
def commonPasswordCheck (toLowerCase : JSString → JSString) (policies : Policies)
    (password : JSString) (results : Results) : Results :=
  if policies.preventCommonPasswords && isCommonPassword toLowerCase password then
    pushIssue results commonPasswordIssue
  else results

/-- Lines 100-102: the personal-information check. -/
def userInfoCheck (toLowerCase : JSString → JSString) (policies : Policies)
    (password : JSString) (userInfo : UserInfo) (results : Results) : Results :=
  if policies.preventUserInfo && containsUserInfo toLowerCase password (some userInfo) then
    pushIssue results personalInfoIssue
  else results

/-- Lines 105-107: the reuse check. -/
def reuseCheck (policies : Policies) (storage : LocalStorage) (password : JSString)
    (userInfo : UserInfo) (results : Results) : Results :=
  if isPasswordReused storage password userInfo.userId then
    pushIssue results (passwordReusedIssue policies)
  else results

/-- Port of `validatePassword`; `userInfo` defaults to the empty object. -/
def validatePassword (toLowerCase : JSString → JSString) (policies : Policies)
    (storage : LocalStorage) (password : JSString) (userInfo : UserInfo := {}) : Results :=
  let results : Results :=
    { isValid := false, score := 0, strength := js "Very Weak", issues := [], suggestions := [] }
  let results := minLengthCheck policies password results
  let results := maxLengthCheck policies password results
  let results := uppercaseCheck policies password results
  let results := lowercaseCheck policies password results
  let results := numbersCheck policies password results
  let results := specialCharsCheck policies password results
  let results := commonPasswordCheck toLowerCase policies password results
  let results := userInfoCheck toLowerCase policies password userInfo results
  let results := reuseCheck policies storage password userInfo results
  let results := addScore results (calculateComplexityBonus toLowerCase password)
  let results := { results with strength := getStrengthLabel results.score }
  let results :=
    { results with isValid := decide (results.issues.length = 0) && decide (results.score ≥ 60) }
  let results := { results with suggestions := generateSuggestions password results.issues }
  results

/-! ## Password generation -/

/-- Port of `getRandomChar`; `r` stands for the outcome of the draw
`Math.floor(Math.random() * str.length)`, taken modulo the length so that
every index below the length, and no other, can come out. -/
def getRandomChar (str : JSString) (r : Nat) : JSString :=
  charAt str (r % str.length)

/-- The constant `uppercase` of `generateSecurePassword`. -/
def uppercase : JSString := js "ABCDEFGHIJKLMNOPQRSTUVWXYZ"

/-- The constant `lowercase` of `generateSecurePassword`. -/
def lowercase : JSString := js "abcdefghijklmnopqrstuvwxyz"

/-- The constant `numbers` of `generateSecurePassword`. -/
def numbers : JSString := js "0123456789"

/-- The fill loop of `generateSecurePassword`: `iterations` rounds, each
appending one draw from `allChars`; `draw` counts the calls of `Math.random`
made so far. -/
def fillLoop (allChars : JSString) (rand : Nat → Nat) : Nat → Nat → JSString → JSString
  | 0, _, password => password
  | iterations + 1, draw, password =>
    fillLoop allChars rand iterations (draw + 1) (password ++ getRandomChar allChars (rand draw))

/-- Port of `generateSecurePassword`. `rand k` is the outcome of the `k`-th
random draw and `shuffle` the outcome of
`split('').sort(() => Math.random() - 0.5).join('')`, which is some
rearrangement of the units. The loop variable starts at `password.length`
and runs while it is below `length`. -/
def generateSecurePassword (rand : Nat → Nat) (shuffle : JSString → JSString)
    (length : Int := 16) : JSString :=
  let special := specialChars
  let password : JSString := []
  let password := password ++ getRandomChar uppercase (rand 0)
  let password := password ++ getRandomChar lowercase (rand 1)
  let password := password ++ getRandomChar numbers (rand 2)
  let password := password ++ getRandomChar special (rand 3)
  let allChars := uppercase ++ lowercase ++ numbers ++ special
  let password := fillLoop allChars rand (length - (password.length : Int)).toNat 4 password
  shuffle password

/-! ## Policy administration -/

/-- The object returned by `validatePolicies`. -/
structure PolicyValidation where
  isValid : Bool
  errors : List JSString
  deriving DecidableEq

/-- Port of `validatePolicies` (`password-policy-admin.js`). -/
def validatePolicies (policies : Policies) : PolicyValidation :=
  let errors : List JSString := []
  let errors :=
    if policies.minLength > policies.maxLength then
      errors ++ [js "Minimum length cannot be greater than maximum length"]
    else errors
  let errors :=
    if policies.minLength < 8 then
      errors ++ [js "Minimum length should be at least 8 characters"]
    else errors
  let errors :=
    if policies.maxAge < policies.warningDays then
      errors ++ [js "Warning days cannot be greater than password max age"]
    else errors
  let errors :=
    if policies.minSpecialChars > policies.minLength then
      errors ++ [js "Minimum special characters cannot exceed minimum length"]
    else errors
  { isValid := decide (errors.length = 0), errors := errors }

/-- ASCII lower-casing: what `toLowerCase` does to a string whose units are
all below 128. Used to evaluate the functions on concrete ASCII inputs. -/
def asciiToLowerCase (s : JSString) : JSString :=
  s.map fun c => if 65 ≤ c.val ∧ c.val ≤ 90 then Fin.ofNat (c.val + 32) else c

/-! ## Password history and expiry -/

/-- What is left in an array after `array.splice(start)`: the elements from
`start` on are removed, a negative `start` counting from the end. -/
def spliceFrom (array : List JSString) (start : Int) : List JSString :=
  if start < 0 then array.take ((array.length : Int) + start).toNat
  else array.take start.toNat

/-- Port of `localStorage.setItem` on the key `passwordHistory_<userId>`. -/
def setPasswordHistory (storage : LocalStorage) (userId : JSString)
    (history : List JSString) : LocalStorage :=
  { storage with
    passwordHistory := fun key => if key = userId then some history else storage.passwordHistory key }

/-- Port of `localStorage.setItem` on the key `passwordInfo_<userId>`. -/
def setPasswordInfo (storage : LocalStorage) (userId : JSString)
    (info : PasswordInfo) : LocalStorage :=
  { storage with
    passwordInfo := fun key => if key = userId then some info else storage.passwordInfo key }

/-- Port of `addToPasswordHistory`. -/
def addToPasswordHistory (policies : Policies) (storage : LocalStorage) (userId : JSString)
    (password : JSString) : LocalStorage :=
  let history := getPasswordHistory storage userId
  let history := password :: history
  let history :=
    if (history.length : Int) > policies.preventReuse then spliceFrom history policies.preventReuse
    else history
  setPasswordHistory storage userId history

/-- Port of `saveNewPassword`; `now` is the time of the call in milliseconds,
which `new Date().toISOString()` records. A missing or zero `changeCount`
counts as 0. -/
def saveNewPassword (policies : Policies) (storage : LocalStorage) (now : Int)
    (userId : JSString) (password : JSString) : LocalStorage :=
  let storage := addToPasswordHistory policies storage userId password
  let passwordInfo : PasswordInfo :=
    { lastChanged := now
      changeCount :=
        (match getPasswordInfo storage userId with
          | some info => info.changeCount
          | none => 0) + 1 }
  setPasswordInfo storage userId passwordInfo

/-- What `checkPasswordExpiry` does to the page: nothing, the expiry warning
with the number of days remaining, or the password-expired modal. -/
inductive ExpiryNotice where
  | none
  | warning (daysRemaining : Int)
  | expired
  deriving DecidableEq

/-- The value `daysSinceChange` of `checkPasswordExpiry`:
`Math.floor((now - lastChanged) / (1000 * 60 * 60 * 24))` on millisecond
timestamps. The division of integers rounds down, the divisor being
positive; the double-precision quotient has the same floor as long as the
two timestamps are less than `2^52` ms (some 140,000 years) apart. -/
def daysSinceChange (now lastChanged : Int) : Int :=
  (now - lastChanged) / (1000 * 60 * 60 * 24)

/-- Port of `checkPasswordExpiry`; `currentUser` is the entry `currentUser`
of `localStorage` and `now` the time of the call in milliseconds. -/
def checkPasswordExpiry (policies : Policies) (storage : LocalStorage)
    (currentUser : Option JSString) (now : Int) : ExpiryNotice :=
  if !truthy currentUser then ExpiryNotice.none
  else
    match getPasswordInfo storage (currentUser.getD []) with
    | none => ExpiryNotice.none
    | some passwordInfo =>
      let daysSince := daysSinceChange now passwordInfo.lastChanged
      if daysSince ≥ policies.maxAge then ExpiryNotice.expired
      else if daysSince ≥ policies.maxAge - policies.warningDays then
        ExpiryNotice.warning (policies.maxAge - daysSince)
      else ExpiryNotice.none

/-- The order `Active < Warning < Expired` of the expiry states. -/
def expiryRank : ExpiryNotice → Nat
  | ExpiryNotice.none => 0
  | ExpiryNotice.warning _ => 1
  | ExpiryNotice.expired => 2

/-! ## The administration panel -/

/-- An entry of the log kept under `passwordPolicyLogs`. -/
structure LogEntry where
  timestamp : Int
  admin : Option JSString
  action : JSString
  data : Option Policies
  deriving DecidableEq

/-- The state `savePolicies` reads and writes: the field `currentPolicies`
of the panel, the entries `passwordPolicies`, `passwordPolicy`,
`passwordPolicyLogs` and `currentUser` of `localStorage`, the policies of
`window.passwordManager` (`none` when there is no manager), the alerts shown
and the status line. -/
structure AdminState where
  currentPolicies : Policies
  storedPolicies : Option Policies
  managerPolicies : Option Policies
  managerStoredPolicy : Option Policies
  policyLogs : List LogEntry
  currentUser : Option JSString
  alerts : List JSString
  status : Option (JSString × JSString)
  deriving DecidableEq

/-- Port of `Array.prototype.join`. -/
def joinWith (separator : JSString) : List JSString → JSString
  | [] => []
  | [s] => s
  | s :: t :: rest => s ++ separator ++ joinWith separator (t :: rest)

/-- Port of `logAdminAction`: the entry is appended and only the last 100
entries are kept. -/
def logAdminAction (now : Int) (action : JSString) (data : Option Policies)
    (state : AdminState) : AdminState :=
  let logEntry : LogEntry :=
    { timestamp := now, admin := state.currentUser, action := action, data := data }
  let logs := state.policyLogs ++ [logEntry]
  let logs := if logs.length > 100 then logs.drop (logs.length - 100) else logs
  { state with policyLogs := logs }

/-- Port of `savePolicies`; `policies` is the object collected from the
fourteen inputs of the panel and `now` the time of the call. The manager,
when present, merges the object into its own policies, which replaces every
field, and stores the result under `passwordPolicy`. -/
def savePolicies (now : Int) (policies : Policies) (state : AdminState) : AdminState :=
  let validation := validatePolicies policies
  if !validation.isValid then
    { state with
      alerts := state.alerts ++
        [js "Policy validation failed: " ++ joinWith (js ", ") validation.errors] }
  else
    let state :=
      match state.managerPolicies with
      | some _ => { state with managerPolicies := some policies, managerStoredPolicy := some policies }
      | none => state
    let state := { state with storedPolicies := some policies }
    let state := { state with currentPolicies := policies }
    let state :=
      { state with status := some (js "Password policies saved successfully!", js "success") }
    logAdminAction now (js "password_policies_updated") (some policies) state

/-! ## The validator's sequence, as the specification words it -/

/-- The specification's count of special characters: the number of
characters of the password that belong to the special set. -/
def specialCharsIn (password : JSString) : Nat :=
  (password.filter fun c => decide (c ∈ specialChars)).length

/-- The specification's steps 1 and 2: the issues of the length bounds and of
the character classes the policy requires that the password violates, in
the order of the sequence. A class is present when some character lies in
`A-Z`, `a-z` or `0-9`. -/
def violatedLengthAndClassRules (policies : Policies) (password : JSString) : List JSString :=
  (if (password.length : Int) < policies.minLength then [tooShortIssue policies] else []) ++
  (if policies.maxLength < (password.length : Int) then [tooLongIssue policies] else []) ++
  (if policies.requireUppercase && !(password.any fun c => decide (65 ≤ c.val ∧ c.val ≤ 90))
    then [missingUppercaseIssue] else []) ++
  (if policies.requireLowercase && !(password.any fun c => decide (97 ≤ c.val ∧ c.val ≤ 122))
    then [missingLowercaseIssue] else []) ++
  (if policies.requireNumbers && !(password.any fun c => decide (48 ≤ c.val ∧ c.val ≤ 57))
    then [missingNumberIssue] else [])

/-- The specification's step 3: the count of special characters against
`minSpecialChars`, only if special characters are required. -/
def violatedSpecialRule (policies : Policies) (password : JSString) : List JSString :=
  if policies.requireSpecialChars = true ∧
    (specialCharsIn password : Int) < policies.minSpecialChars
  then [insufficientSpecialIssue policies] else []

/-- The specification's steps 4 and 5: common-password membership and
personal-information containment, each only if the policy asks for it. -/
def violatedContentRules (toLowerCase : JSString → JSString) (policies : Policies)
    (password : JSString) (userInfo : UserInfo) : List JSString :=
  (if policies.preventCommonPasswords && isCommonPassword toLowerCase password
    then [commonPasswordIssue] else []) ++
  (if policies.preventUserInfo && containsUserInfo toLowerCase password (some userInfo)
    then [personalInfoIssue] else [])

/-- The specification's step 6: the reuse check, only if the identity has a
known history and `preventReuse > 0`. -/
def violatedReuseRule (policies : Policies) (storage : LocalStorage) (password : JSString)
    (userInfo : UserInfo) : List JSString :=
  match userInfo.userId with
  | some userId =>
    if 0 < policies.preventReuse ∧ password ∈ getPasswordHistory storage userId
    then [passwordReusedIssue policies] else []
  | none => []

/-- The rules a password violates, in the order of the specification's
sequence. -/
def violatedRules (toLowerCase : JSString → JSString) (policies : Policies)
    (storage : LocalStorage) (password : JSString) (userInfo : UserInfo) : List JSString :=
  violatedLengthAndClassRules policies password ++ violatedSpecialRule policies password ++
    violatedContentRules toLowerCase policies password userInfo ++
    violatedReuseRule policies storage password userInfo

/-! ## How each check acts on the score and on the issue list -/

theorem minLengthCheck_score (pol : Policies) (pw : JSString) (r : Results) :
    (minLengthCheck pol pw r).score =
      r.score + (if pol.minLength ≤ (pw.length : Int) then 20 else 0) := by
  unfold minLengthCheck
  split
  · rw [if_neg (by omega)]; simp [pushIssue]
  · rw [if_pos (by omega), if_pos (by omega)]; simp [addScore]

theorem minLengthCheck_issues (pol : Policies) (pw : JSString) (r : Results) :
    (minLengthCheck pol pw r).issues =
      r.issues ++ (if (pw.length : Int) < pol.minLength then [tooShortIssue pol] else []) := by
  unfold minLengthCheck
  split
  · simp [pushIssue]
  · split <;> simp [addScore]

theorem maxLengthCheck_score (pol : Policies) (pw : JSString) (r : Results) :
    (maxLengthCheck pol pw r).score = r.score := by
  unfold maxLengthCheck
  split <;> simp [pushIssue]

theorem maxLengthCheck_issues (pol : Policies) (pw : JSString) (r : Results) :
    (maxLengthCheck pol pw r).issues =
      r.issues ++ (if pol.maxLength < (pw.length : Int) then [tooLongIssue pol] else []) := by
  unfold maxLengthCheck
  split <;> simp_all [pushIssue]

theorem uppercaseCheck_score (pol : Policies) (pw : JSString) (r : Results) :
    (uppercaseCheck pol pw r).score =
      r.score + (if regexTest upperClass pw then 15 else 0) := by
  unfold uppercaseCheck
  cases pol.requireUppercase <;> cases regexTest upperClass pw <;> simp [pushIssue, addScore]

theorem uppercaseCheck_issues (pol : Policies) (pw : JSString) (r : Results) :
    (uppercaseCheck pol pw r).issues =
      r.issues ++ (if pol.requireUppercase && !regexTest upperClass pw
        then [missingUppercaseIssue] else []) := by
  unfold uppercaseCheck
  cases pol.requireUppercase <;> cases regexTest upperClass pw <;> simp [pushIssue, addScore]

theorem lowercaseCheck_score (pol : Policies) (pw : JSString) (r : Results) :
    (lowercaseCheck pol pw r).score =
      r.score + (if regexTest lowerClass pw then 15 else 0) := by
  unfold lowercaseCheck
  cases pol.requireLowercase <;> cases regexTest lowerClass pw <;> simp [pushIssue, addScore]

theorem lowercaseCheck_issues (pol : Policies) (pw : JSString) (r : Results) :
    (lowercaseCheck pol pw r).issues =
      r.issues ++ (if pol.requireLowercase && !regexTest lowerClass pw
        then [missingLowercaseIssue] else []) := by
  unfold lowercaseCheck
  cases pol.requireLowercase <;> cases regexTest lowerClass pw <;> simp [pushIssue, addScore]

theorem numbersCheck_score (pol : Policies) (pw : JSString) (r : Results) :
    (numbersCheck pol pw r).score =
      r.score + (if regexTest digitClass pw then 15 else 0) := by
  unfold numbersCheck
  cases pol.requireNumbers <;> cases regexTest digitClass pw <;> simp [pushIssue, addScore]

theorem numbersCheck_issues (pol : Policies) (pw : JSString) (r : Results) :
    (numbersCheck pol pw r).issues =
      r.issues ++ (if pol.requireNumbers && !regexTest digitClass pw
        then [missingNumberIssue] else []) := by
  unfold numbersCheck
  cases pol.requireNumbers <;> cases regexTest digitClass pw <;> simp [pushIssue, addScore]

theorem specialCharsCheck_score (pol : Policies) (pw : JSString) (r : Results) :
    (specialCharsCheck pol pw r).score =
      r.score + (if pol.requireSpecialChars = true ∧
        pol.minSpecialChars ≤ (specialCharCount pw : Int) then 20 else 0) := by
  unfold specialCharsCheck
  cases pol.requireSpecialChars
  · simp
  · by_cases h : (specialCharCount pw : Int) < pol.minSpecialChars
    · simp [h, pushIssue]
    · simp [h, addScore, not_lt.mp h]

theorem specialCharsCheck_issues (pol : Policies) (pw : JSString) (r : Results) :
    (specialCharsCheck pol pw r).issues =
      r.issues ++ (if pol.requireSpecialChars = true ∧
        (specialCharCount pw : Int) < pol.minSpecialChars
        then [insufficientSpecialIssue pol] else []) := by
  unfold specialCharsCheck
  cases pol.requireSpecialChars
  · simp
  · by_cases h : (specialCharCount pw : Int) < pol.minSpecialChars
    · simp [h, pushIssue]
    · simp [h, addScore]

theorem commonPasswordCheck_score (lc : JSString → JSString) (pol : Policies) (pw : JSString)
    (r : Results) : (commonPasswordCheck lc pol pw r).score = r.score := by
  unfold commonPasswordCheck
  split <;> simp [pushIssue]

theorem commonPasswordCheck_issues (lc : JSString → JSString) (pol : Policies) (pw : JSString)
    (r : Results) :
    (commonPasswordCheck lc pol pw r).issues =
      r.issues ++ (if pol.preventCommonPasswords && isCommonPassword lc pw
        then [commonPasswordIssue] else []) := by
  unfold commonPasswordCheck
  split <;> simp_all [pushIssue]

theorem userInfoCheck_score (lc : JSString → JSString) (pol : Policies) (pw : JSString)
    (ui : UserInfo) (r : Results) : (userInfoCheck lc pol pw ui r).score = r.score := by
  unfold userInfoCheck
  split <;> simp [pushIssue]

theorem userInfoCheck_issues (lc : JSString → JSString) (pol : Policies) (pw : JSString)
    (ui : UserInfo) (r : Results) :
    (userInfoCheck lc pol pw ui r).issues =
      r.issues ++ (if pol.preventUserInfo && containsUserInfo lc pw (some ui)
        then [personalInfoIssue] else []) := by
  unfold userInfoCheck
  split <;> simp_all [pushIssue]

theorem reuseCheck_score (pol : Policies) (st : LocalStorage) (pw : JSString)
    (ui : UserInfo) (r : Results) : (reuseCheck pol st pw ui r).score = r.score := by
  unfold reuseCheck
  split <;> simp [pushIssue]

theorem reuseCheck_issues (pol : Policies) (st : LocalStorage) (pw : JSString)
    (ui : UserInfo) (r : Results) :
    (reuseCheck pol st pw ui r).issues =
      r.issues ++ (if isPasswordReused st pw ui.userId
        then [passwordReusedIssue pol] else []) := by
  unfold reuseCheck
  split <;> simp_all [pushIssue]

/-- The score returned by `validatePassword` is the sum of what the checks
and the complexity bonus add to it. -/
theorem validatePassword_score (lc : JSString → JSString) (pol : Policies)
    (st : LocalStorage) (pw : JSString) (ui : UserInfo) :
    (validatePassword lc pol st pw ui).score =
      (if pol.minLength ≤ (pw.length : Int) then 20 else 0) +
      (if regexTest upperClass pw then 15 else 0) +
      (if regexTest lowerClass pw then 15 else 0) +
      (if regexTest digitClass pw then 15 else 0) +
      (if pol.requireSpecialChars = true ∧
        pol.minSpecialChars ≤ (specialCharCount pw : Int) then 20 else 0) +
      calculateComplexityBonus lc pw := by
  simp only [validatePassword, addScore, reuseCheck_score, userInfoCheck_score,
    commonPasswordCheck_score, specialCharsCheck_score, numbersCheck_score,
    lowercaseCheck_score, uppercaseCheck_score, maxLengthCheck_score, minLengthCheck_score]
  simp

/-- The issue list returned by `validatePassword` is the concatenation, in
source order, of what each check pushes. -/
theorem validatePassword_issues (lc : JSString → JSString) (pol : Policies)
    (st : LocalStorage) (pw : JSString) (ui : UserInfo) :
    (validatePassword lc pol st pw ui).issues =
      (if (pw.length : Int) < pol.minLength then [tooShortIssue pol] else []) ++
      (if pol.maxLength < (pw.length : Int) then [tooLongIssue pol] else []) ++
      (if pol.requireUppercase && !regexTest upperClass pw
        then [missingUppercaseIssue] else []) ++
      (if pol.requireLowercase && !regexTest lowerClass pw
        then [missingLowercaseIssue] else []) ++
      (if pol.requireNumbers && !regexTest digitClass pw
        then [missingNumberIssue] else []) ++
      (if pol.requireSpecialChars = true ∧
        (specialCharCount pw : Int) < pol.minSpecialChars
        then [insufficientSpecialIssue pol] else []) ++
      (if pol.preventCommonPasswords && isCommonPassword lc pw
        then [commonPasswordIssue] else []) ++
      (if pol.preventUserInfo && containsUserInfo lc pw (some ui)
        then [personalInfoIssue] else []) ++
      (if isPasswordReused st pw ui.userId
        then [passwordReusedIssue pol] else []) := by
  simp only [validatePassword, addScore, reuseCheck_issues, userInfoCheck_issues,
    commonPasswordCheck_issues, specialCharsCheck_issues, numbersCheck_issues,
    lowercaseCheck_issues, uppercaseCheck_issues, maxLengthCheck_issues, minLengthCheck_issues]
  simp

/-- The verdict line of `validatePassword`. -/
theorem validatePassword_isValid (lc : JSString → JSString) (pol : Policies)
    (st : LocalStorage) (pw : JSString) (ui : UserInfo) :
    (validatePassword lc pol st pw ui).isValid = true ↔
      (validatePassword lc pol st pw ui).issues = [] ∧
        60 ≤ (validatePassword lc pol st pw ui).score := by
  simp [validatePassword, List.length_eq_zero]

/-! ## The double-precision comparison of the variety bonus -/

theorem excessBits_div_lt (fuel : Nat) : ∀ a : Nat, a ≤ fuel →
    a / 2 ^ excessBits fuel a < 2 ^ 53 := by
  induction fuel with
  | zero =>
    intro a ha
    have : a = 0 := by omega
    subst this
    simp [excessBits]
  | succ fuel ih =>
    intro a ha
    unfold excessBits
    split
    · simpa using ‹a < 2 ^ 53›
    · have h2 : a / 2 ≤ fuel := by omega
      have := ih (a / 2) h2
      rw [Nat.add_comm 1, Nat.pow_succ, Nat.mul_comm, ← Nat.div_div_eq_div_mul]
      exact this

theorem excessBits_lower (fuel : Nat) : ∀ a : Nat,
    excessBits fuel a = 0 ∨ 2 ^ excessBits fuel a * 2 ^ 52 ≤ a := by
  induction fuel with
  | zero => intro a; simp [excessBits]
  | succ fuel ih =>
    intro a
    unfold excessBits
    split
    · exact Or.inl rfl
    · right
      rename_i h
      rcases ih (a / 2) with h0 | h1
      · rw [h0]; norm_num; omega
      · rw [Nat.add_comm 1, Nat.pow_succ]
        have : 2 * (a / 2) ≤ a := Nat.mul_div_le a 2
        nlinarith

/-- What rounding to 53 bits guarantees: the result is a multiple of the
unit in the last place `P`, at most half a unit away from the argument, and
the unit is `1` or at most `a / 2^52`. -/
theorem roundTo53_spec (a : Nat) :
    ∃ k : Nat, (k = 0 ∨ 2 ^ k * 2 ^ 52 ≤ a) ∧ 2 ^ k ∣ roundTo53 a ∧
      2 * roundTo53 a ≤ 2 * a + 2 ^ k ∧ 2 * a ≤ 2 * roundTo53 a + 2 ^ k := by
  refine ⟨excessBits a a, excessBits_lower a a, ?_, ?_, ?_⟩
  · exact Dvd.intro_left _ rfl
  all_goals
    unfold roundTo53
    simp only
    generalize excessBits a a = k
    have hP : 0 < 2 ^ k := Nat.pow_pos (by norm_num)
    have hdm : 2 ^ k * (a / 2 ^ k) + a % 2 ^ k = a := Nat.div_add_mod a (2 ^ k)
    have hr : a % 2 ^ k < 2 ^ k := Nat.mod_lt _ hP
    generalize a / 2 ^ k = q at *
    generalize a % 2 ^ k = r at *
    generalize 2 ^ k = P at *
    split_ifs <;> nlinarith

theorem lt_add_le_of_dvd {P T W : Nat} (hT : P ∣ T) (hW : P ∣ W) (h : T < W) :
    T + P ≤ W := by
  obtain ⟨t, rfl⟩ := hT
  obtain ⟨w, rfl⟩ := hW
  have hP : 0 < P := by
    rcases Nat.eq_zero_or_pos P with h0 | h0
    · subst h0; simp at h
    · exact h0
  have htw : t < w := lt_of_mul_lt_mul_left h (Nat.zero_le P)
  calc P * t + P = P * (t + 1) := by ring
    _ ≤ P * w := Nat.mul_le_mul_left P htw

/-- For counts below `2^27` the double comparison
`uniqueChars >= length * 0.7` decides `7 * length ≤ 10 * uniqueChars`. -/
theorem timesDouble07_le_iff (n u : Nat) (hu : u < 2 ^ 27) :
    timesDouble07 n ≤ u * 2 ^ 53 ↔ 7 * n ≤ 10 * u := by
  unfold timesDouble07 double07
  obtain ⟨k, hk, hdvd, hup, hlo⟩ := roundTo53_spec (n * 6305039478318694)
  generalize roundTo53 (n * 6305039478318694) = W at *
  have hP : 0 < 2 ^ k := Nat.pow_pos (by norm_num)
  by_cases hn : n < 2 ^ 49
  · have hPn : 2 ^ k ≤ 2 * n ∨ k = 0 := by
      rcases hk with h0 | h1
      · exact Or.inr h0
      · left; norm_num at h1 ⊢; omega
    have hk53 : k ≤ 53 := by
      rcases hPn with h | h
      · by_contra hc
        have : 2 ^ 54 ≤ 2 ^ k := Nat.pow_le_pow_right (by norm_num) (by omega)
        norm_num at this hn; omega
      · omega
    have hPT : 2 ^ k ∣ u * 2 ^ 53 := Dvd.dvd.mul_left (Nat.pow_dvd_pow 2 hk53) u
    have hP1 : 2 ^ k ≤ 2 * n + 1 := by
      rcases hPn with h | h
      · omega
      · rw [h]; norm_num
    constructor
    · intro hWT
      by_contra hc
      norm_num at hn hWT hup hlo hP1
      omega
    · intro h7
      by_contra hc
      have hlt : u * 2 ^ 53 < W := by omega
      have := lt_add_le_of_dvd hPT hdvd hlt
      norm_num at hn hup hlo hP1 this
      omega
  · have hPa : 2 ^ k ≤ n * 6305039478318694 := by
      rcases hk with h0 | h1
      · rw [h0]; norm_num at hn ⊢; omega
      · norm_num at h1 ⊢; omega
    norm_num at hn hu hup hlo hPa ⊢
    constructor <;> intro h <;> omega

/-! ## The number of distinct code points -/

theorem codePointsAux_lt (s : JSString) : ∀ o : Option CodeUnit,
    ∀ x ∈ codePointsAux o s, x < 2 ^ 24 := by
  induction s with
  | nil =>
    intro o x hx
    cases o with
    | none => simp [codePointsAux] at hx
    | some h =>
      simp [codePointsAux] at hx
      have := h.isLt
      omega
  | cons c cs ih =>
    intro o x hx
    have hc := c.isLt
    cases o with
    | none =>
      unfold codePointsAux at hx
      split at hx
      · exact ih _ x hx
      · rcases List.mem_cons.mp hx with h | h
        · omega
        · exact ih _ x h
    | some h =>
      have hh := h.isLt
      unfold codePointsAux at hx
      split at hx
      · rcases List.mem_cons.mp hx with h1 | h1
        · norm_num; omega
        · exact ih _ x h1
      · split at hx
        · rcases List.mem_cons.mp hx with h1 | h1
          · omega
          · exact ih _ x h1
        · rcases List.mem_cons.mp hx with h1 | h1
          · omega
          · rcases List.mem_cons.mp h1 with h2 | h2
            · omega
            · exact ih _ x h2

theorem foldl_setAdd_nodup (xs : List Nat) : ∀ acc : List Nat, acc.Nodup →
    (xs.foldl setAdd acc).Nodup ∧ ∀ y ∈ xs.foldl setAdd acc, y ∈ acc ∨ y ∈ xs := by
  induction xs with
  | nil => intro acc h; exact ⟨h, fun y hy => Or.inl hy⟩
  | cons x xs ih =>
    intro acc h
    have hstep : (setAdd acc x).Nodup := by
      unfold setAdd
      split
      · exact h
      · rename_i hx
        exact List.Nodup.append h (List.nodup_singleton x) (by simpa using hx)
    obtain ⟨h1, h2⟩ := ih (setAdd acc x) hstep
    refine ⟨h1, fun y hy => ?_⟩
    rcases h2 y hy with h3 | h3
    · unfold setAdd at h3
      split at h3
      · exact Or.inl h3
      · rcases List.mem_append.mp h3 with h4 | h4
        · exact Or.inl h4
        · right; simp at h4; simp [h4]
    · right; exact List.mem_cons_of_mem _ h3

theorem nodup_length_le (l : List Nat) (B : Nat) (hn : l.Nodup) (hb : ∀ x ∈ l, x < B) :
    l.length ≤ B := by
  have hsub : l.toFinset ⊆ Finset.range B := by
    intro x hx
    exact Finset.mem_range.mpr (hb x (List.mem_toFinset.mp hx))
  have := Finset.card_le_card hsub
  rwa [List.toFinset_card_of_nodup hn, Finset.card_range] at this

/-- A string has fewer than `2^27` distinct code points. -/
theorem uniqueCharCount_lt (p : JSString) : uniqueCharCount p < 2 ^ 27 := by
  unfold uniqueCharCount codePoints
  obtain ⟨h1, h2⟩ := foldl_setAdd_nodup (codePointsAux none p) [] List.nodup_nil
  have hb : ∀ x ∈ (codePointsAux none p).foldl setAdd [], x < 2 ^ 24 := by
    intro x hx
    rcases h2 x hx with h | h
    · simp at h
    · exact codePointsAux_lt p none x h
  have := nodup_length_le _ _ h1 hb
  norm_num at this ⊢
  omega

/-! ## Character classes -/

theorem inClass_upperClass (c : CodeUnit) :
    inClass upperClass c = true ↔ 65 ≤ c.val ∧ c.val ≤ 90 := by
  show (decide ((65 : CodeUnit) ≤ c) && decide (c ≤ (90 : CodeUnit)) || false) = true ↔ _
  rw [Bool.or_false, Bool.and_eq_true, decide_eq_true_eq, decide_eq_true_eq]
  exact Iff.rfl

theorem inClass_lowerClass (c : CodeUnit) :
    inClass lowerClass c = true ↔ 97 ≤ c.val ∧ c.val ≤ 122 := by
  show (decide ((97 : CodeUnit) ≤ c) && decide (c ≤ (122 : CodeUnit)) || false) = true ↔ _
  rw [Bool.or_false, Bool.and_eq_true, decide_eq_true_eq, decide_eq_true_eq]
  exact Iff.rfl

theorem inClass_digitClass (c : CodeUnit) :
    inClass digitClass c = true ↔ 48 ≤ c.val ∧ c.val ≤ 57 := by
  show (decide ((48 : CodeUnit) ≤ c) && decide (c ≤ (57 : CodeUnit)) || false) = true ↔ _
  rw [Bool.or_false, Bool.and_eq_true, decide_eq_true_eq, decide_eq_true_eq]
  exact Iff.rfl

theorem forall_mem_of_all {p : CodeUnit → Prop} [DecidablePred p] (s : JSString)
    (h : s.all (fun c => decide (p c)) = true) : ∀ c ∈ s, p c := by
  intro c hc
  exact of_decide_eq_true (List.all_eq_true.mp h c hc)

theorem regexTest_eq_true (cls : CharClass) (s : JSString) :
    regexTest cls s = true ↔ ∃ c ∈ s, inClass cls c = true := by
  simp [regexTest, List.any_eq_true]

theorem regexTest_eq_false (cls : CharClass) (s : JSString) :
    regexTest cls s = false ↔ ∀ c ∈ s, inClass cls c = false := by
  simp [regexTest, List.any_eq_false]

/-- Without the `g` flag the match array has one element, so the count is
`1` when some unit matches the class and `0` otherwise. -/
theorem specialCharCount_eq (s : JSString) :
    specialCharCount s = if regexTest specialCharRegex s then 1 else 0 := by
  unfold specialCharCount stringMatch regexTest
  cases h : s.find? (inClass specialCharRegex) with
  | none =>
    have : s.any (inClass specialCharRegex) = false := by
      rw [List.any_eq_false]
      intro x hx
      have := List.find?_eq_none.mp h x hx
      simpa using this
    simp [this]
  | some c =>
    have hc := List.find?_some h
    have hm := List.mem_of_find?_eq_some h
    have : s.any (inClass specialCharRegex) = true := List.any_eq_true.mpr ⟨c, hm, hc⟩
    simp [this]

theorem specialCharCount_le_one (s : JSString) : specialCharCount s ≤ 1 := by
  rw [specialCharCount_eq]
  split <;> omega

theorem calculateComplexityBonus_bounds (lc : JSString → JSString) (p : JSString) :
    0 ≤ calculateComplexityBonus lc p ∧ calculateComplexityBonus lc p ≤ 15 := by
  unfold calculateComplexityBonus
  simp only
  refine ⟨?_, min_le_right _ _⟩
  apply le_min _ (by norm_num)
  split_ifs <;> norm_num

theorem isValid_false_of_mem_issues (lc : JSString → JSString) (pol : Policies)
    (st : LocalStorage) (pw : JSString) (ui : UserInfo) (issue : JSString)
    (h : issue ∈ (validatePassword lc pol st pw ui).issues) :
    (validatePassword lc pol st pw ui).isValid = false := by
  cases hv : (validatePassword lc pol st pw ui).isValid with
  | false => rfl
  | true =>
    have := ((validatePassword_isValid lc pol st pw ui).mp hv).1
    rw [this] at h
    simp at h

/-- When special characters are required and `minSpecialChars` is 2 or more,
every password gets the insufficient-special-characters issue, because the
count never exceeds 1. -/
theorem special_issue_of_two_required (lc : JSString → JSString) (pol : Policies)
    (st : LocalStorage) (pw : JSString) (ui : UserInfo)
    (hreq : pol.requireSpecialChars = true) (hmin : 2 ≤ pol.minSpecialChars) :
    insufficientSpecialIssue pol ∈ (validatePassword lc pol st pw ui).issues ∧
      (validatePassword lc pol st pw ui).isValid = false := by
  have hcount : (specialCharCount pw : Int) < pol.minSpecialChars := by
    have := specialCharCount_le_one pw
    omega
  have hmem : insufficientSpecialIssue pol ∈ (validatePassword lc pol st pw ui).issues := by
    rw [validatePassword_issues]
    simp [hreq, hcount]
  exact ⟨hmem, isValid_false_of_mem_issues _ _ _ _ _ _ hmem⟩

theorem validatePolicies_isValid_iff (pol : Policies) :
    (validatePolicies pol).isValid = true ↔
      pol.minLength ≤ pol.maxLength ∧ 8 ≤ pol.minLength ∧
        pol.warningDays ≤ pol.maxAge ∧ pol.minSpecialChars ≤ pol.minLength := by
  unfold validatePolicies
  simp only [gt_iff_lt]
  by_cases h1 : pol.maxLength < pol.minLength <;> by_cases h2 : pol.minLength < 8 <;>
    by_cases h3 : pol.maxAge < pol.warningDays <;>
    by_cases h4 : pol.minLength < pol.minSpecialChars <;>
    simp [h1, h2, h3, h4]
  omega

/-! ## The password generator -/

theorem getRandomChar_length (str : JSString) (hs : str ≠ []) (r : Nat) :
    (getRandomChar str r).length = 1 := by
  unfold getRandomChar charAt
  have hlen : 0 < str.length := List.length_pos.mpr hs
  have hlt : r % str.length < str.length := Nat.mod_lt _ hlen
  rw [List.get?_eq_get hlt]
  rfl

theorem fillLoop_length (allChars : JSString) (hs : allChars ≠ []) (rand : Nat → Nat) :
    ∀ (iterations draw : Nat) (password : JSString),
      (fillLoop allChars rand iterations draw password).length = password.length + iterations := by
  intro iterations
  induction iterations with
  | zero => intro draw password; simp [fillLoop]
  | succ k ih =>
    intro draw password
    unfold fillLoop
    rw [ih, List.length_append, getRandomChar_length allChars hs]
    omega

theorem mem_fillLoop (allChars : JSString) (rand : Nat → Nat) (c : CodeUnit) :
    ∀ (iterations draw : Nat) (password : JSString), c ∈ password →
      c ∈ fillLoop allChars rand iterations draw password := by
  intro iterations
  induction iterations with
  | zero => intro draw password h; simpa [fillLoop] using h
  | succ k ih =>
    intro draw password h
    unfold fillLoop
    exact ih _ _ (List.mem_append_left _ h)

theorem regexTest_of_subset (cls : CharClass) (s t : JSString) (hsub : ∀ c ∈ s, c ∈ t)
    (h : regexTest cls s = true) : regexTest cls t = true := by
  rw [regexTest_eq_true] at h ⊢
  obtain ⟨c, hc, hin⟩ := h
  exact ⟨c, hsub c hc, hin⟩

theorem getRandomChar_uppercase (r : Nat) :
    regexTest upperClass (getRandomChar uppercase r) = true := by
  have h : ∀ i < 26, regexTest upperClass (charAt uppercase i) = true := by decide
  exact h (r % 26) (Nat.mod_lt _ (by norm_num))

theorem getRandomChar_lowercase (r : Nat) :
    regexTest lowerClass (getRandomChar lowercase r) = true := by
  have h : ∀ i < 26, regexTest lowerClass (charAt lowercase i) = true := by decide
  exact h (r % 26) (Nat.mod_lt _ (by norm_num))

theorem getRandomChar_numbers (r : Nat) :
    regexTest digitClass (getRandomChar numbers r) = true := by
  have h : ∀ i < 10, regexTest digitClass (charAt numbers i) = true := by decide
  exact h (r % 10) (Nat.mod_lt _ (by norm_num))

theorem getRandomChar_special (r : Nat) :
    regexTest specialCharRegex (getRandomChar specialChars r) = true := by
  have h : ∀ i < 26, regexTest specialCharRegex (charAt specialChars i) = true := by decide
  exact h (r % 26) (Nat.mod_lt _ (by norm_num))

/-- What `generateSecurePassword` returns when the shuffle rearranges its
input: a string of `max length 4` units that holds an uppercase letter, a
lowercase letter, a digit and a unit matched by `specialCharRegex`. -/
theorem generateSecurePassword_spec (rand : Nat → Nat) (shuffle : JSString → JSString)
    (length : Int) (hshuffle : ∀ s, (shuffle s).Perm s) :
    ((generateSecurePassword rand shuffle length).length : Int) = max length 4 ∧
      regexTest upperClass (generateSecurePassword rand shuffle length) = true ∧
      regexTest lowerClass (generateSecurePassword rand shuffle length) = true ∧
      regexTest digitClass (generateSecurePassword rand shuffle length) = true ∧
      regexTest specialCharRegex (generateSecurePassword rand shuffle length) = true := by
  unfold generateSecurePassword
  simp only [List.nil_append]
  have hU := getRandomChar_length uppercase (by decide) (rand 0)
  have hL := getRandomChar_length lowercase (by decide) (rand 1)
  have hD := getRandomChar_length numbers (by decide) (rand 2)
  have hS := getRandomChar_length specialChars (by decide) (rand 3)
  have hall : uppercase ++ lowercase ++ numbers ++ specialChars ≠ [] := by decide
  generalize hpre : getRandomChar uppercase (rand 0) ++ getRandomChar lowercase (rand 1) ++
    getRandomChar numbers (rand 2) ++ getRandomChar specialChars (rand 3) = pre
  have hprelen : pre.length = 4 := by
    rw [← hpre]; simp only [List.length_append, hU, hL, hD, hS]
  have hmem : ∀ c ∈ pre, c ∈ shuffle (fillLoop (uppercase ++ lowercase ++ numbers ++ specialChars)
      rand (length - (pre.length : Int)).toNat 4 pre) := by
    intro c hc
    exact (hshuffle _).mem_iff.mpr (mem_fillLoop _ _ _ _ _ _ hc)
  refine ⟨?_, ?_, ?_, ?_, ?_⟩
  · rw [(hshuffle _).length_eq, fillLoop_length _ hall, hprelen]
    omega
  · apply regexTest_of_subset _ _ _ _ (getRandomChar_uppercase (rand 0))
    intro c hc
    exact hmem c (by rw [← hpre]; simp [hc])
  · apply regexTest_of_subset _ _ _ _ (getRandomChar_lowercase (rand 1))
    intro c hc
    exact hmem c (by rw [← hpre]; simp [hc])
  · apply regexTest_of_subset _ _ _ _ (getRandomChar_numbers (rand 2))
    intro c hc
    exact hmem c (by rw [← hpre]; simp [hc])
  · apply regexTest_of_subset _ _ _ _ (getRandomChar_special (rand 3))
    intro c hc
    exact hmem c (by rw [← hpre]; simp [hc])

theorem containsUserInfo_empty (lc : JSString → JSString) (pw : JSString) :
    containsUserInfo lc pw (some {}) = false := by
  simp [containsUserInfo, checkFields, truthy]

theorem isPasswordReused_no_userId (st : LocalStorage) (pw : JSString) :
    isPasswordReused st pw ({} : UserInfo).userId = false := by
  simp [isPasswordReused, truthy]

/-! ## The claims -/

/-- C1. Under the constructor's default policy `validatePassword` does not
accept `C0rrect-Horse-Battery99!!`: it reports the special-character issue,
returns `isValid = false`, the score 80 and the label `Strong`, although the
password holds four characters of the special set. -/
theorem C1_default_scenario_rejected :
    (validatePassword asciiToLowerCase defaultPolicies emptyStorage
        (js "C0rrect-Horse-Battery99!!") {}).issues =
        [js "Password must contain at least 2 special characters"] ∧
      (validatePassword asciiToLowerCase defaultPolicies emptyStorage
        (js "C0rrect-Horse-Battery99!!") {}).isValid = false ∧
      (validatePassword asciiToLowerCase defaultPolicies emptyStorage
        (js "C0rrect-Horse-Battery99!!") {}).score = 80 ∧
      (validatePassword asciiToLowerCase defaultPolicies emptyStorage
        (js "C0rrect-Horse-Battery99!!") {}).strength = js "Strong" ∧
      ((js "C0rrect-Horse-Battery99!!").filter (fun c => decide (c ∈ specialChars))).length = 4 := by
  decide

/-- C2, as stated, fails. The policy that differs from the default one by
`minSpecialChars = 3` is accepted by `validatePolicies`, the length 16 lies
within its bounds, and when every draw yields index 0 and the shuffle leaves
the order alone the generated password is `Aa0!AAAAAAAAAAAA`, with a single
special character: it is not valid. With `minSpecialChars = 1`, length 12
and draws that spell `admin`, the generated password `Aa0!adminaaa` is
rejected as a common password. -/
theorem C2_generated_password_rejected :
    (validatePolicies { defaultPolicies with minSpecialChars := 3 }).isValid = true ∧
      ({ defaultPolicies with minSpecialChars := 3 } : Policies).minLength ≤ 16 ∧
      16 ≤ ({ defaultPolicies with minSpecialChars := 3 } : Policies).maxLength ∧
      generateSecurePassword (fun _ => 0) id 16 = js "Aa0!AAAAAAAAAAAA" ∧
      (validatePassword asciiToLowerCase { defaultPolicies with minSpecialChars := 3 }
        emptyStorage (generateSecurePassword (fun _ => 0) id 16) {}).isValid = false ∧
      (validatePolicies { defaultPolicies with minSpecialChars := 1 }).isValid = true ∧
      generateSecurePassword (fun k => [0, 0, 0, 0, 26, 29, 38, 34, 39].getD k 26) id 12 =
        js "Aa0!adminaaa" ∧
      (validatePassword asciiToLowerCase { defaultPolicies with minSpecialChars := 1 }
        emptyStorage
        (generateSecurePassword (fun k => [0, 0, 0, 0, 26, 29, 38, 34, 39].getD k 26) id 12)
        {}).issues = [commonPasswordIssue] ∧
      (validatePassword asciiToLowerCase { defaultPolicies with minSpecialChars := 1 }
        emptyStorage
        (generateSecurePassword (fun k => [0, 0, 0, 0, 26, 29, 38, 34, 39].getD k 26) id 12)
        {}).isValid = false := by
  decide

/-- C2, amended. For every policy accepted by `validatePolicies` in which
special characters are not required or `minSpecialChars ≤ 1`, every length
`L` with `minLength ≤ L ≤ maxLength`, every outcome of the random draws and
of the shuffle, and every stored history: if the generated password is not
reported by `isCommonPassword` (or `preventCommonPasswords` is off), then
`validatePassword(generateSecurePassword(L), {})` has `isValid = true`. -/
theorem C2_generated_password_valid (toLowerCase : JSString → JSString)
    (policies : Policies) (storage : LocalStorage) (rand : Nat → Nat)
    (shuffle : JSString → JSString) (L : Int)
    (hpolicy : (validatePolicies policies).isValid = true)
    (hmin : policies.minLength ≤ L) (hmax : L ≤ policies.maxLength)
    (hshuffle : ∀ s, (shuffle s).Perm s)
    (hspecial : policies.requireSpecialChars = false ∨ policies.minSpecialChars ≤ 1)
    (hcommon : policies.preventCommonPasswords = false ∨
      isCommonPassword toLowerCase (generateSecurePassword rand shuffle L) = false) :
    (validatePassword toLowerCase policies storage (generateSecurePassword rand shuffle L)
      {}).isValid = true := by
  obtain ⟨-, h8, -, -⟩ := (validatePolicies_isValid_iff policies).mp hpolicy
  obtain ⟨hlen, hU, hL, hD, hS⟩ := generateSecurePassword_spec rand shuffle L hshuffle
  have hlen' : ((generateSecurePassword rand shuffle L).length : Int) = L := by
    rw [hlen]; omega
  have hcount : specialCharCount (generateSecurePassword rand shuffle L) = 1 := by
    rw [specialCharCount_eq, hS]; rfl
  obtain ⟨hb0, -⟩ := calculateComplexityBonus_bounds toLowerCase
    (generateSecurePassword rand shuffle L)
  rw [validatePassword_isValid]
  constructor
  · rw [validatePassword_issues, containsUserInfo_empty, isPasswordReused_no_userId, hlen',
      hU, hL, hD, hcount]
    have h1 : ¬ (L < policies.minLength) := by omega
    have h2 : ¬ (policies.maxLength < L) := by omega
    have h4 : (policies.preventCommonPasswords &&
        isCommonPassword toLowerCase (generateSecurePassword rand shuffle L)) = false := by
      rcases hcommon with h | h <;> simp [h]
    simp only [h1, h2, h4, if_false, Bool.not_true, Bool.and_false, Bool.false_eq_true,
      List.append_nil, List.nil_append]
    rw [if_neg]
    rintro ⟨hr, hlt⟩
    rcases hspecial with h | h
    · rw [h] at hr; cases hr
    · have : ((1 : Nat) : Int) = 1 := rfl
      omega
  · rw [validatePassword_score, hlen', hU, hL, hD]
    rw [if_pos hmin]
    simp only [eq_self_iff_true, if_true]
    split_ifs <;> omega

/-- Witness of C2 (amended): the default policy with `minSpecialChars = 1`,
length 16, every draw yielding index 0 and an order-preserving shuffle. -/
theorem C2_generated_password_valid_witness :
    (validatePolicies { defaultPolicies with minSpecialChars := 1 }).isValid = true ∧
      (validatePassword asciiToLowerCase { defaultPolicies with minSpecialChars := 1 }
        emptyStorage (generateSecurePassword (fun _ => 0) id 16) {}).isValid = true :=
  ⟨by decide,
   C2_generated_password_valid asciiToLowerCase { defaultPolicies with minSpecialChars := 1 }
     emptyStorage (fun _ => 0) id 16 (by decide) (by decide) (by decide)
     (fun s => List.Perm.refl s) (Or.inr (by decide)) (Or.inr (by decide))⟩

/-- C3. The field `isValid` returned by `validatePassword` is true if and
only if the returned issue list is empty and the returned score is at least
60. -/
theorem C3_isValid_iff_no_issue_and_score (toLowerCase : JSString → JSString)
    (policies : Policies) (storage : LocalStorage) (password : JSString)
    (userInfo : UserInfo) :
    (validatePassword toLowerCase policies storage password userInfo).isValid = true ↔
      (validatePassword toLowerCase policies storage password userInfo).issues = [] ∧
        (validatePassword toLowerCase policies storage password userInfo).score ≥ 60 :=
  validatePassword_isValid toLowerCase policies storage password userInfo

/-- C4. Under the default policy (special characters required, at least 2)
the password `Sup3r!Secret#Pass` holds two characters of the special set,
yet `validatePassword` reports the insufficient-special-characters issue and
the score is 80, without the 20 special-character points: the count taken
from the match array never exceeds 1. -/
theorem C4_two_specials_still_reported :
    ((js "Sup3r!Secret#Pass").filter (fun c => decide (c ∈ specialChars))).length = 2 ∧
      defaultPolicies.requireSpecialChars = true ∧ defaultPolicies.minSpecialChars = 2 ∧
      specialCharCount (js "Sup3r!Secret#Pass") = 1 ∧
      insufficientSpecialIssue defaultPolicies ∈
        (validatePassword asciiToLowerCase defaultPolicies emptyStorage
          (js "Sup3r!Secret#Pass") {}).issues ∧
      (validatePassword asciiToLowerCase defaultPolicies emptyStorage
        (js "Sup3r!Secret#Pass") {}).score = 80 := by
  decide

/-- C5. For each of the flags `requireUppercase`, `requireLowercase` and
`requireNumbers` that is set, a password without any unit of that class
(A-Z, a-z, 0-9) gets the corresponding missing-class issue and
`isValid = false`. -/
theorem C5_missing_class_reported (toLowerCase : JSString → JSString)
    (policies : Policies) (storage : LocalStorage) (password : JSString)
    (userInfo : UserInfo) :
    (policies.requireUppercase = true →
      (∀ c ∈ password, ¬(65 ≤ c.val ∧ c.val ≤ 90)) →
      missingUppercaseIssue ∈
          (validatePassword toLowerCase policies storage password userInfo).issues ∧
        (validatePassword toLowerCase policies storage password userInfo).isValid = false) ∧
    (policies.requireLowercase = true →
      (∀ c ∈ password, ¬(97 ≤ c.val ∧ c.val ≤ 122)) →
      missingLowercaseIssue ∈
          (validatePassword toLowerCase policies storage password userInfo).issues ∧
        (validatePassword toLowerCase policies storage password userInfo).isValid = false) ∧
    (policies.requireNumbers = true →
      (∀ c ∈ password, ¬(48 ≤ c.val ∧ c.val ≤ 57)) →
      missingNumberIssue ∈
          (validatePassword toLowerCase policies storage password userInfo).issues ∧
        (validatePassword toLowerCase policies storage password userInfo).isValid = false) := by
  refine ⟨fun hreq hno => ?_, fun hreq hno => ?_, fun hreq hno => ?_⟩
  · have ht : regexTest upperClass password = false := by
      rw [regexTest_eq_false]
      intro c hc
      have := hno c hc
      rw [← inClass_upperClass] at this
      simpa using this
    have hmem : missingUppercaseIssue ∈
        (validatePassword toLowerCase policies storage password userInfo).issues := by
      rw [validatePassword_issues]
      simp [hreq, ht]
    exact ⟨hmem, isValid_false_of_mem_issues _ _ _ _ _ _ hmem⟩
  · have ht : regexTest lowerClass password = false := by
      rw [regexTest_eq_false]
      intro c hc
      have := hno c hc
      rw [← inClass_lowerClass] at this
      simpa using this
    have hmem : missingLowercaseIssue ∈
        (validatePassword toLowerCase policies storage password userInfo).issues := by
      rw [validatePassword_issues]
      simp [hreq, ht]
    exact ⟨hmem, isValid_false_of_mem_issues _ _ _ _ _ _ hmem⟩
  · have ht : regexTest digitClass password = false := by
      rw [regexTest_eq_false]
      intro c hc
      have := hno c hc
      rw [← inClass_digitClass] at this
      simpa using this
    have hmem : missingNumberIssue ∈
        (validatePassword toLowerCase policies storage password userInfo).issues := by
      rw [validatePassword_issues]
      simp [hreq, ht]
    exact ⟨hmem, isValid_false_of_mem_issues _ _ _ _ _ _ hmem⟩

/-- Witness of C5: under the default policy `12345678` has neither an
uppercase nor a lowercase letter and `abcdefgh` has no digit. -/
theorem C5_missing_class_reported_witness :
    (missingUppercaseIssue ∈
        (validatePassword asciiToLowerCase defaultPolicies emptyStorage (js "12345678") {}).issues ∧
      (validatePassword asciiToLowerCase defaultPolicies emptyStorage (js "12345678") {}).isValid
        = false) ∧
    (missingLowercaseIssue ∈
        (validatePassword asciiToLowerCase defaultPolicies emptyStorage (js "12345678") {}).issues ∧
      (validatePassword asciiToLowerCase defaultPolicies emptyStorage (js "12345678") {}).isValid
        = false) ∧
    (missingNumberIssue ∈
        (validatePassword asciiToLowerCase defaultPolicies emptyStorage (js "abcdefgh") {}).issues ∧
      (validatePassword asciiToLowerCase defaultPolicies emptyStorage (js "abcdefgh") {}).isValid
        = false) :=
  ⟨(C5_missing_class_reported asciiToLowerCase defaultPolicies emptyStorage (js "12345678") {}).1
      (by decide) (forall_mem_of_all _ (by decide)),
   (C5_missing_class_reported asciiToLowerCase defaultPolicies emptyStorage (js "12345678")
      {}).2.1 (by decide) (forall_mem_of_all _ (by decide)),
   (C5_missing_class_reported asciiToLowerCase defaultPolicies emptyStorage (js "abcdefgh")
      {}).2.2 (by decide) (forall_mem_of_all _ (by decide))⟩

/-- C6. A password shorter than `minLength` gets the too-short issue and
`isValid = false`; one longer than `maxLength` gets the too-long issue and
`isValid = false`; under the default policy the 11-unit password
`Tr0ub4dor&3` gets the too-short issue (naming 12) and is not valid. -/
theorem C6_length_bounds_reported :
    (∀ (toLowerCase : JSString → JSString) (policies : Policies) (storage : LocalStorage)
        (password : JSString) (userInfo : UserInfo),
      ((password.length : Int) < policies.minLength →
        tooShortIssue policies ∈
            (validatePassword toLowerCase policies storage password userInfo).issues ∧
          (validatePassword toLowerCase policies storage password userInfo).isValid = false) ∧
      ((password.length : Int) > policies.maxLength →
        tooLongIssue policies ∈
            (validatePassword toLowerCase policies storage password userInfo).issues ∧
          (validatePassword toLowerCase policies storage password userInfo).isValid = false)) ∧
    (js "Tr0ub4dor&3").length = 11 ∧
    tooShortIssue defaultPolicies = js "Password must be at least 12 characters long" ∧
    (∀ (toLowerCase : JSString → JSString) (storage : LocalStorage) (userInfo : UserInfo),
      tooShortIssue defaultPolicies ∈
          (validatePassword toLowerCase defaultPolicies storage (js "Tr0ub4dor&3")
            userInfo).issues ∧
        (validatePassword toLowerCase defaultPolicies storage (js "Tr0ub4dor&3")
          userInfo).isValid = false) := by
  have hshort : ∀ (lc : JSString → JSString) (pol : Policies) (st : LocalStorage)
      (pw : JSString) (ui : UserInfo), (pw.length : Int) < pol.minLength →
      tooShortIssue pol ∈ (validatePassword lc pol st pw ui).issues ∧
        (validatePassword lc pol st pw ui).isValid = false := by
    intro lc pol st pw ui h
    have hmem : tooShortIssue pol ∈ (validatePassword lc pol st pw ui).issues := by
      rw [validatePassword_issues]
      simp [h]
    exact ⟨hmem, isValid_false_of_mem_issues _ _ _ _ _ _ hmem⟩
  refine ⟨fun lc pol st pw ui => ⟨hshort lc pol st pw ui, fun h => ?_⟩, by decide, by decide,
    fun lc st ui => hshort lc defaultPolicies st _ ui (by decide)⟩
  have hmem : tooLongIssue pol ∈ (validatePassword lc pol st pw ui).issues := by
    rw [validatePassword_issues]
    simp [gt_iff_lt.mp h]
  exact ⟨hmem, isValid_false_of_mem_issues _ _ _ _ _ _ hmem⟩

/-- Witness of C6: under the default policy `short` is below the minimum
length, and under a policy with `maxLength = 8` the password `0123456789` is
above the maximum. -/
theorem C6_length_bounds_reported_witness :
    (tooShortIssue defaultPolicies ∈
        (validatePassword asciiToLowerCase defaultPolicies emptyStorage (js "short") {}).issues ∧
      (validatePassword asciiToLowerCase defaultPolicies emptyStorage (js "short") {}).isValid
        = false) ∧
    (tooLongIssue { defaultPolicies with minLength := 8, maxLength := 8 } ∈
        (validatePassword asciiToLowerCase { defaultPolicies with minLength := 8, maxLength := 8 }
          emptyStorage (js "0123456789") {}).issues ∧
      (validatePassword asciiToLowerCase { defaultPolicies with minLength := 8, maxLength := 8 }
        emptyStorage (js "0123456789") {}).isValid = false) :=
  ⟨(C6_length_bounds_reported.1 asciiToLowerCase defaultPolicies emptyStorage (js "short") {}).1
      (by decide),
   (C6_length_bounds_reported.1 asciiToLowerCase
      { defaultPolicies with minLength := 8, maxLength := 8 } emptyStorage (js "0123456789")
      {}).2 (by decide)⟩

/-- C7. The score returned by `validatePassword` is an integer between 0 and
100 inclusive. -/
theorem C7_score_between_0_and_100 (toLowerCase : JSString → JSString)
    (policies : Policies) (storage : LocalStorage) (password : JSString)
    (userInfo : UserInfo) :
    0 ≤ (validatePassword toLowerCase policies storage password userInfo).score ∧
      (validatePassword toLowerCase policies storage password userInfo).score ≤ 100 := by
  rw [validatePassword_score]
  obtain ⟨h0, h15⟩ := calculateComplexityBonus_bounds toLowerCase password
  constructor <;> split_ifs <;> omega

/-- C8, as stated, fails: with `requireUppercase`, `requireLowercase` and
`requireNumbers` switched off, the uppercase check still adds 15 points for
`A`, the lowercase check 15 for `a` and the digit check 15 for `7`; the whole
score of `A` is then 30, of which only 15 are complexity bonus. -/
theorem C8_unrequired_class_still_scores :
    noClassPolicies.requireUppercase = false ∧
      (uppercaseCheck noClassPolicies (js "A")
        { isValid := false, score := 0, strength := js "Very Weak", issues := [],
          suggestions := [] }).score = 15 ∧
      (lowercaseCheck noClassPolicies (js "a")
        { isValid := false, score := 0, strength := js "Very Weak", issues := [],
          suggestions := [] }).score = 15 ∧
      (numbersCheck noClassPolicies (js "7")
        { isValid := false, score := 0, strength := js "Very Weak", issues := [],
          suggestions := [] }).score = 15 ∧
      (validatePassword asciiToLowerCase
        noClassPolicies emptyStorage (js "A") {}).score = 30 ∧
      calculateComplexityBonus asciiToLowerCase (js "A") = 15 := by
  decide

/-- C8, amended. Each of the uppercase, lowercase and digit checks adds 15
to the score exactly when the password contains a unit of that class (A-Z,
a-z, 0-9), whether or not the policy requires the class, and adds nothing
otherwise; the length check adds 20 exactly when the length is at least
`minLength` and nothing otherwise; and the returned score is the sum of
these contributions, the special-character points and the complexity
bonus. -/
theorem C8_class_and_length_contributions (toLowerCase : JSString → JSString)
    (policies : Policies) (storage : LocalStorage) (password : JSString)
    (userInfo : UserInfo) (results : Results) :
    (uppercaseCheck policies password results).score - results.score =
        (if ∃ c ∈ password, 65 ≤ c.val ∧ c.val ≤ 90 then 15 else 0) ∧
      (lowercaseCheck policies password results).score - results.score =
        (if ∃ c ∈ password, 97 ≤ c.val ∧ c.val ≤ 122 then 15 else 0) ∧
      (numbersCheck policies password results).score - results.score =
        (if ∃ c ∈ password, 48 ≤ c.val ∧ c.val ≤ 57 then 15 else 0) ∧
      (minLengthCheck policies password results).score - results.score =
        (if (password.length : Int) ≥ policies.minLength then 20 else 0) ∧
      (validatePassword toLowerCase policies storage password userInfo).score =
        (if (password.length : Int) ≥ policies.minLength then 20 else 0) +
        (if ∃ c ∈ password, 65 ≤ c.val ∧ c.val ≤ 90 then 15 else 0) +
        (if ∃ c ∈ password, 97 ≤ c.val ∧ c.val ≤ 122 then 15 else 0) +
        (if ∃ c ∈ password, 48 ≤ c.val ∧ c.val ≤ 57 then 15 else 0) +
        (if policies.requireSpecialChars = true ∧
          policies.minSpecialChars ≤ (specialCharCount password : Int) then 20 else 0) +
        calculateComplexityBonus toLowerCase password := by
  have hU : (regexTest upperClass password = true) ↔ ∃ c ∈ password, 65 ≤ c.val ∧ c.val ≤ 90 := by
    rw [regexTest_eq_true]
    simp only [inClass_upperClass]
  have hL : (regexTest lowerClass password = true) ↔ ∃ c ∈ password, 97 ≤ c.val ∧ c.val ≤ 122 := by
    rw [regexTest_eq_true]
    simp only [inClass_lowerClass]
  have hD : (regexTest digitClass password = true) ↔ ∃ c ∈ password, 48 ≤ c.val ∧ c.val ≤ 57 := by
    rw [regexTest_eq_true]
    simp only [inClass_digitClass]
  rw [uppercaseCheck_score, lowercaseCheck_score, numbersCheck_score, minLengthCheck_score,
    validatePassword_score]
  simp only [hU, hL, hD, ge_iff_le, add_sub_cancel_left, and_self]

/-- C9. For every password of `n` code units with `u` distinct code points,
`calculateComplexityBonus` is the minimum of 15 and the sum of 10 when
`n ≥ 16`, 5 when `n ≥ 20`, 10 when `10 * u ≥ 7 * n`, 5 when there is no
repeating pattern and 5 when there is no sequential run; so it lies between
0 and 15. -/
theorem C9_complexityBonus_formula (toLowerCase : JSString → JSString) (p : JSString) :
    calculateComplexityBonus toLowerCase p =
      min 15
        ((if 16 ≤ p.length then 10 else 0) + (if 20 ≤ p.length then 5 else 0) +
          (if 7 * p.length ≤ 10 * uniqueCharCount p then 10 else 0) +
          (if hasRepeatingPatterns p then 0 else 5) +
          (if hasSequentialChars toLowerCase p then 0 else 5)) ∧
      0 ≤ calculateComplexityBonus toLowerCase p ∧
      calculateComplexityBonus toLowerCase p ≤ 15 := by
  have hiff := timesDouble07_le_iff p.length (uniqueCharCount p) (uniqueCharCount_lt p)
  unfold calculateComplexityBonus
  simp only [hiff]
  by_cases h16 : 16 ≤ p.length <;> by_cases h20 : 20 ≤ p.length <;>
    by_cases hu : 7 * p.length ≤ 10 * uniqueCharCount p <;>
    cases hasRepeatingPatterns p <;> cases hasSequentialChars toLowerCase p <;>
    simp [h16, h20, hu]

/-- C10. `getStrengthLabel` returns `Excellent` from 90, `Strong` from 75,
`Good` from 60, `Fair` from 40, `Weak` from 20 and `Very Weak` below 20, and
the field `strength` returned by `validatePassword` is `getStrengthLabel` of
the returned score. -/
theorem C10_strength_label_thresholds :
    (∀ score : Int,
      (90 ≤ score → getStrengthLabel score = js "Excellent") ∧
      (75 ≤ score ∧ score < 90 → getStrengthLabel score = js "Strong") ∧
      (60 ≤ score ∧ score < 75 → getStrengthLabel score = js "Good") ∧
      (40 ≤ score ∧ score < 60 → getStrengthLabel score = js "Fair") ∧
      (20 ≤ score ∧ score < 40 → getStrengthLabel score = js "Weak") ∧
      (score < 20 → getStrengthLabel score = js "Very Weak")) ∧
    (∀ (toLowerCase : JSString → JSString) (policies : Policies) (storage : LocalStorage)
        (password : JSString) (userInfo : UserInfo),
      (validatePassword toLowerCase policies storage password userInfo).strength =
        getStrengthLabel (validatePassword toLowerCase policies storage password userInfo).score) := by
  constructor
  · intro score
    unfold getStrengthLabel
    refine ⟨fun h => ?_, fun h => ?_, fun h => ?_, fun h => ?_, fun h => ?_, fun h => ?_⟩
    · rw [if_pos h]
    · rw [if_neg (by omega), if_pos h.1]
    · rw [if_neg (by omega), if_neg (by omega), if_pos h.1]
    · rw [if_neg (by omega), if_neg (by omega), if_neg (by omega), if_pos h.1]
    · rw [if_neg (by omega), if_neg (by omega), if_neg (by omega), if_neg (by omega), if_pos h.1]
    · rw [if_neg (by omega), if_neg (by omega), if_neg (by omega), if_neg (by omega),
        if_neg (by omega)]
  · intro lc pol st pw ui
    simp [validatePassword]

/-- Witness of C10: the scores 95, 80, 60, 59, 20 and 19. -/
theorem C10_strength_label_thresholds_witness :
    getStrengthLabel 95 = js "Excellent" ∧ getStrengthLabel 80 = js "Strong" ∧
      getStrengthLabel 60 = js "Good" ∧ getStrengthLabel 59 = js "Fair" ∧
      getStrengthLabel 20 = js "Weak" ∧ getStrengthLabel 19 = js "Very Weak" :=
  ⟨(C10_strength_label_thresholds.1 95).1 (by decide),
   (C10_strength_label_thresholds.1 80).2.1 (by decide),
   (C10_strength_label_thresholds.1 60).2.2.1 (by decide),
   (C10_strength_label_thresholds.1 59).2.2.2.1 (by decide),
   (C10_strength_label_thresholds.1 20).2.2.2.2.1 (by decide),
   (C10_strength_label_thresholds.1 19).2.2.2.2.2 (by decide)⟩

/-! ## Expiry -/

/-- The decision of `checkPasswordExpiry` for a signed-in user with a stored
password record, as a function of the days since the change. -/
theorem checkPasswordExpiry_eq (pol : Policies) (st : LocalStorage) (user : JSString)
    (info : PasswordInfo) (now : Int) (huser : user ≠ [])
    (hinfo : getPasswordInfo st user = some info) :
    checkPasswordExpiry pol st (some user) now =
      if daysSinceChange now info.lastChanged ≥ pol.maxAge then ExpiryNotice.expired
      else if daysSinceChange now info.lastChanged ≥ pol.maxAge - pol.warningDays then
        ExpiryNotice.warning (pol.maxAge - daysSinceChange now info.lastChanged)
      else ExpiryNotice.none := by
  unfold checkPasswordExpiry
  have ht : truthy (some user) = true := by
    cases user with
    | nil => exact absurd rfl huser
    | cons a l => rfl
  simp only [ht, Bool.not_true, Bool.false_eq_true, if_false, Option.getD_some, hinfo]

theorem daysSinceChange_mono (last t1 t2 : Int) (h : t1 ≤ t2) :
    daysSinceChange t1 last ≤ daysSinceChange t2 last := by
  unfold daysSinceChange
  apply Int.ediv_le_ediv (by norm_num)
  omega

theorem getPasswordInfo_saveNewPassword (pol : Policies) (st : LocalStorage) (now : Int)
    (user pw : JSString) :
    ∃ info, getPasswordInfo (saveNewPassword pol st now user pw) user = some info ∧
      info.lastChanged = now := by
  unfold saveNewPassword getPasswordInfo setPasswordInfo
  simp

/-! ## The reuse window -/

theorem getPasswordHistory_setPasswordHistory (st : LocalStorage) (user : JSString)
    (history : List JSString) :
    getPasswordHistory (setPasswordHistory st user history) user = history := by
  simp [getPasswordHistory, setPasswordHistory]

/-- With a window of `n ≥ 0` entries `addToPasswordHistory` stores the first
`n` elements of the new password followed by the old history. -/
theorem getPasswordHistory_addToPasswordHistory (pol : Policies) (st : LocalStorage)
    (user pw : JSString) (n : Nat) (hk : pol.preventReuse = (n : Int)) :
    getPasswordHistory (addToPasswordHistory pol st user pw) user =
      (pw :: getPasswordHistory st user).take n := by
  unfold addToPasswordHistory
  simp only [getPasswordHistory_setPasswordHistory, hk]
  split
  · unfold spliceFrom
    rw [if_neg (by omega)]
    simp
  · rename_i h
    rw [List.take_of_length_le]
    have : ((pw :: getPasswordHistory st user).length : Int) ≤ n := by omega
    exact_mod_cast this

theorem take_append_take (n : Nat) (a b : List JSString) :
    (a ++ b.take n).take n = (a ++ b).take n := by
  rw [List.take_append_eq_append_take, List.take_append_eq_append_take, List.take_take]
  congr 2
  omega

/-- After the passwords `ps` were added in order to a history that fits the
window, the stored history is the first `n` elements of `ps` reversed
followed by the old history. -/
theorem getPasswordHistory_foldl (pol : Policies) (user : JSString) (n : Nat)
    (hk : pol.preventReuse = (n : Int)) (ps : List JSString) : ∀ st : LocalStorage,
    (getPasswordHistory st user).length ≤ n →
    getPasswordHistory (ps.foldl (fun s p => addToPasswordHistory pol s user p) st) user =
      (ps.reverse ++ getPasswordHistory st user).take n := by
  induction ps with
  | nil =>
    intro st hlen
    simp [List.take_of_length_le hlen]
  | cons p ps ih =>
    intro st _
    have hstep := getPasswordHistory_addToPasswordHistory pol st user p n hk
    have hlen' : (getPasswordHistory (addToPasswordHistory pol st user p) user).length ≤ n := by
      rw [hstep, List.length_take]
      exact Nat.min_le_left _ _
    rw [List.foldl_cons, ih _ hlen', hstep, take_append_take, List.reverse_cons,
      List.append_assoc]
    rfl

theorem isPasswordReused_eq (st : LocalStorage) (pw user : JSString) (huser : user ≠ []) :
    isPasswordReused st pw (some user) = decide (pw ∈ getPasswordHistory st user) := by
  unfold isPasswordReused
  have ht : truthy (some user) = true := by
    cases user with
    | nil => exact absurd rfl huser
    | cons a l => rfl
  simp only [ht, Bool.not_true, Bool.false_eq_true, if_false, Option.getD_some]
  cases h : decide (pw ∈ getPasswordHistory st user) with
  | false =>
    rw [List.any_eq_false]
    intro x hx hc
    have hne : pw ∉ getPasswordHistory st user := of_decide_eq_false h
    have : pw = x := of_decide_eq_true hc
    exact hne (this ▸ hx)
  | true =>
    rw [List.any_eq_true]
    exact ⟨pw, of_decide_eq_true h, by simp [comparePasswords]⟩

/-! ## String search -/

theorem startsWith_iff (s : JSString) : ∀ t : JSString, startsWith s t = true ↔ t <+: s := by
  induction s with
  | nil =>
    intro t
    cases t with
    | nil => simp [startsWith]
    | cons b t => simp [startsWith]
  | cons a s ih =>
    intro t
    cases t with
    | nil => simp [startsWith]
    | cons b t =>
      simp only [startsWith, Bool.and_eq_true, beq_iff_eq, ih, List.cons_prefix_cons]
      constructor
      · rintro ⟨h1, h2⟩; exact ⟨h1.symm, h2⟩
      · rintro ⟨h1, h2⟩; exact ⟨h1.symm, h2⟩

/-- The function `includes` decides whether `t` is a contiguous part of `s`. -/
theorem includes_iff (s t : JSString) : includes s t = true ↔ t <:+: s := by
  induction s with
  | nil =>
    simp only [includes, startsWith_iff, List.prefix_nil, List.infix_nil]
  | cons a s ih =>
    simp only [includes, Bool.or_eq_true, startsWith_iff, ih, List.infix_cons_iff]

theorem indexOfAux_ne (t : JSString) (s : JSString) : ∀ pos : Nat,
    indexOfAux t s pos ≠ -1 ↔ ∃ k, k ≤ s.length ∧ t <+: s.drop k := by
  induction s with
  | nil =>
    intro pos
    unfold indexOfAux
    by_cases h : startsWith [] t = true
    · rw [if_pos h]
      have hp := (startsWith_iff [] t).mp h
      constructor
      · intro _; exact ⟨0, Nat.le_refl _, by simpa using hp⟩
      · intro _; omega
    · rw [if_neg h]
      constructor
      · intro hc; exact absurd rfl hc
      · rintro ⟨k, -, hk⟩
        exact absurd ((startsWith_iff [] t).mpr (by simpa using hk)) h
  | cons a s ih =>
    intro pos
    unfold indexOfAux
    by_cases h : startsWith (a :: s) t = true
    · rw [if_pos h]
      constructor
      · intro _; exact ⟨0, Nat.zero_le _, by simpa using (startsWith_iff _ t).mp h⟩
      · intro _; omega
    · rw [if_neg h, ih (pos + 1)]
      constructor
      · rintro ⟨k, hk, hp⟩
        exact ⟨k + 1, by simpa using hk, by simpa using hp⟩
      · rintro ⟨k, hk, hp⟩
        cases k with
        | zero => exact absurd ((startsWith_iff _ t).mpr (by simpa using hp)) h
        | succ k => exact ⟨k, by simpa using hk, by simpa using hp⟩

/-- The call `s.indexOf(t, position)` finds `t` exactly when `t` starts at
some index between `position` (clamped to the length) and the length. -/
theorem indexOf_ne (s t : JSString) (position : Nat) :
    indexOf s t position ≠ -1 ↔
      ∃ j, min position s.length ≤ j ∧ j ≤ s.length ∧ t <+: s.drop j := by
  unfold indexOf
  simp only
  rw [indexOfAux_ne]
  constructor
  · rintro ⟨k, hk, hp⟩
    rw [List.length_drop] at hk
    rw [List.drop_drop] at hp
    exact ⟨min position s.length + k, by omega, by omega, hp⟩
  · rintro ⟨j, h1, h2, hp⟩
    refine ⟨j - min position s.length, by rw [List.length_drop]; omega, ?_⟩
    rw [List.drop_drop]
    have : min position s.length + (j - min position s.length) = j := by omega
    rwa [this]

theorem substring_window (p : JSString) (i : Nat) (h : i + 3 ≤ p.length) :
    substring p i (i + 3) = (p.drop i).take 3 := by
  unfold substring
  simp only
  have h1 : min i p.length = i := by omega
  have h2 : min (i + 3) p.length = i + 3 := by omega
  rw [h1, h2]
  have h3 : min i (i + 3) = i := by omega
  have h4 : max i (i + 3) - i = 3 := by omega
  rw [h3, h4]

theorem window_length (p : JSString) (i : Nat) (h : i + 3 ≤ p.length) :
    ((p.drop i).take 3).length = 3 := by
  rw [List.length_take, List.length_drop]
  omega

/-- The loop of `hasRepeatingPatterns` succeeds exactly when two windows of
three units that start at different indices are equal. -/
theorem hasRepeatingPatterns_iff (p : JSString) :
    hasRepeatingPatterns p = true ↔
      ∃ i j, i < j ∧ j + 3 ≤ p.length ∧ (p.drop i).take 3 = (p.drop j).take 3 := by
  unfold hasRepeatingPatterns
  rw [List.any_eq_true]
  constructor
  · rintro ⟨i, hi, hcond⟩
    rw [Bool.and_eq_true, decide_eq_true_eq, decide_eq_true_eq, indexOf_ne] at hcond
    obtain ⟨hle, j, hj1, hj2, hp⟩ := hcond
    have hi3 : i + 3 ≤ p.length := by omega
    rw [substring_window p i hi3] at hp
    have hlen := hp.length_le
    rw [window_length p i hi3, List.length_drop] at hlen
    refine ⟨i, j, by omega, by omega, ?_⟩
    have := List.prefix_iff_eq_take.mp hp
    rw [window_length p i hi3] at this
    exact this
  · rintro ⟨i, j, hij, hj, heq⟩
    have hi3 : i + 3 ≤ p.length := by omega
    refine ⟨i, List.mem_range.mpr (by omega), ?_⟩
    rw [Bool.and_eq_true, decide_eq_true_eq, decide_eq_true_eq, indexOf_ne]
    refine ⟨by omega, j, by omega, by omega, ?_⟩
    rw [substring_window p i hi3, heq]
    exact List.take_prefix _ _

/-! ## Appending one unit to a password -/

theorem calculateComplexityBonus_eq (lc : JSString → JSString) (p : JSString) :
    calculateComplexityBonus lc p =
      min 15
        ((if 16 ≤ p.length then 10 else 0) + (if 20 ≤ p.length then 5 else 0) +
          (if 7 * p.length ≤ 10 * uniqueCharCount p then 10 else 0) +
          (if hasRepeatingPatterns p then 0 else 5) +
          (if hasSequentialChars lc p then 0 else 5)) := by
  have hiff := timesDouble07_le_iff p.length (uniqueCharCount p) (uniqueCharCount_lt p)
  unfold calculateComplexityBonus
  simp only [hiff]
  by_cases h16 : 16 ≤ p.length <;> by_cases h20 : 20 ≤ p.length <;>
    by_cases hu : 7 * p.length ≤ 10 * uniqueCharCount p <;>
    cases hasRepeatingPatterns p <;> cases hasSequentialChars lc p <;>
    simp [h16, h20, hu]

theorem codePointsAux_concat (c : CodeUnit) (hlead : isLeadSurrogate c = false)
    (htrail : isTrailSurrogate c = false) (p : JSString) : ∀ o : Option CodeUnit,
    codePointsAux o (p ++ [c]) = codePointsAux o p ++ [c.val] := by
  induction p with
  | nil =>
    intro o
    cases o with
    | none => simp [codePointsAux, hlead]
    | some h => simp [codePointsAux, hlead, htrail]
  | cons x xs ih =>
    intro o
    cases o with
    | none =>
      simp only [List.cons_append, codePointsAux, List.append_eq]
      split
      · exact ih _
      · simp only [ih, List.cons_append]
    | some h =>
      simp only [List.cons_append, codePointsAux, List.append_eq]
      split
      · simp only [ih, List.cons_append]
      · split
        · simp only [ih, List.cons_append]
        · simp only [ih, List.cons_append]

theorem codePointsAux_mem (p : JSString) : ∀ (o : Option CodeUnit) (y : Nat),
    y ∈ codePointsAux o p → (∃ x ∈ p, y = x.val) ∨ (∃ h, o = some h ∧ y = h.val) ∨ 65536 ≤ y := by
  induction p with
  | nil =>
    intro o y hy
    cases o with
    | none => simp [codePointsAux] at hy
    | some h =>
      simp only [codePointsAux, List.mem_singleton] at hy
      exact Or.inr (Or.inl ⟨h, rfl, hy⟩)
  | cons x xs ih =>
    intro o y hy
    have hrec : ∀ o' : Option CodeUnit, (o' = none ∨ o' = some x) → y ∈ codePointsAux o' xs →
        (∃ z ∈ x :: xs, y = z.val) ∨ (∃ h, o = some h ∧ y = h.val) ∨ 65536 ≤ y := by
      intro o' ho' hmem
      rcases ih o' y hmem with ⟨z, hz, hyz⟩ | ⟨h, hh, hyh⟩ | hbig
      · exact Or.inl ⟨z, List.mem_cons_of_mem _ hz, hyz⟩
      · rcases ho' with h0 | h0
        · rw [h0] at hh; cases hh
        · rw [h0] at hh
          cases hh
          exact Or.inl ⟨x, List.mem_cons_self _ _, hyh⟩
      · exact Or.inr (Or.inr hbig)
    cases o with
    | none =>
      unfold codePointsAux at hy
      split at hy
      · exact hrec _ (Or.inr rfl) hy
      · rcases List.mem_cons.mp hy with h1 | h1
        · exact Or.inl ⟨x, List.mem_cons_self _ _, h1⟩
        · exact hrec _ (Or.inl rfl) h1
    | some h =>
      unfold codePointsAux at hy
      split at hy
      · rcases List.mem_cons.mp hy with h1 | h1
        · right; right; omega
        · exact hrec _ (Or.inl rfl) h1
      · split at hy
        · rcases List.mem_cons.mp hy with h1 | h1
          · exact Or.inr (Or.inl ⟨h, rfl, h1⟩)
          · exact hrec _ (Or.inr rfl) h1
        · rcases List.mem_cons.mp hy with h1 | h1
          · exact Or.inr (Or.inl ⟨h, rfl, h1⟩)
          · rcases List.mem_cons.mp h1 with h2 | h2
            · exact Or.inl ⟨x, List.mem_cons_self _ _, h2⟩
            · exact hrec _ (Or.inl rfl) h2

/-- Appending a unit that is not a surrogate and does not occur in the
password adds one distinct code point. -/
theorem uniqueCharCount_concat (p : JSString) (c : CodeUnit)
    (hlead : isLeadSurrogate c = false) (htrail : isTrailSurrogate c = false) (hc : c ∉ p) :
    uniqueCharCount (p ++ [c]) = uniqueCharCount p + 1 := by
  unfold uniqueCharCount codePoints
  rw [codePointsAux_concat c hlead htrail p none, List.foldl_append]
  have hnot : c.val ∉ (codePointsAux none p).foldl setAdd [] := by
    intro hmem
    rcases (foldl_setAdd_nodup (codePointsAux none p) [] List.nodup_nil).2 _ hmem with h | h
    · simp at h
    · rcases codePointsAux_mem p none _ h with ⟨x, hx, hxc⟩ | ⟨h', hh, -⟩ | hbig
      · exact hc ((Fin.val_injective hxc) ▸ hx)
      · cases hh
      · have hlt := c.isLt
        omega
  simp only [List.foldl_cons, List.foldl_nil, setAdd, if_neg hnot, List.length_append,
    List.length_singleton]

theorem window_concat (p : JSString) (c : CodeUnit) (k : Nat) (h : k + 3 ≤ p.length) :
    ((p ++ [c]).drop k).take 3 = (p.drop k).take 3 := by
  rw [List.drop_append_of_le_length (by omega), List.take_append_of_le_length]
  rw [List.length_drop]
  omega

theorem window_getElem (l : JSString) (k : Nat) :
    ((l.drop k).take 3)[2]? = l[k + 2]? := by
  rw [List.getElem?_take_of_lt (by norm_num), List.getElem?_drop]

/-- Appending a unit that does not occur in the password creates no repeated
window. -/
theorem hasRepeatingPatterns_concat (p : JSString) (c : CodeUnit) (hc : c ∉ p)
    (h : hasRepeatingPatterns (p ++ [c]) = true) : hasRepeatingPatterns p = true := by
  rw [hasRepeatingPatterns_iff] at h ⊢
  obtain ⟨i, j, hij, hj, heq⟩ := h
  rw [List.length_append, List.length_singleton] at hj
  by_cases hin : j + 3 ≤ p.length
  · refine ⟨i, j, hij, hin, ?_⟩
    rwa [window_concat p c i (by omega), window_concat p c j hin] at heq
  · exfalso
    have hjl : j + 2 = p.length := by omega
    have h2 := congrArg (fun w => w[2]?) heq
    simp only [window_getElem] at h2
    rw [hjl, List.getElem?_append_left (by omega), List.getElem?_append_right (Nat.le_refl _),
      Nat.sub_self] at h2
    have hlt : i + 2 < p.length := by omega
    rw [List.getElem?_eq_getElem hlt] at h2
    simp only [List.getElem?_cons_zero, Option.some.injEq] at h2
    exact hc (h2 ▸ List.getElem_mem _)

theorem includes_concat (l seq : JSString) (c : CodeUnit) (hc : c ∉ seq) (hne : seq ≠ [])
    (h : includes (l ++ [c]) seq = true) : includes l seq = true := by
  rw [includes_iff] at h ⊢
  rcases List.infix_concat_iff.mp h with hs | hi
  · rcases List.suffix_concat_iff.mp hs with h0 | ⟨t, ht, -⟩
    · exact absurd h0 hne
    · exact absurd (by rw [ht]; simp) hc
  · exact hi

theorem special_not_in_sequences :
    ∀ c ∈ specialChars, ∀ seq ∈ sequences, c ∉ seq ∧ c ∉ seq.reverse ∧ seq ≠ [] := by
  apply forall_mem_of_all
  decide

/-- When lower-casing leaves an appended special character in place, the
character creates no sequential run. -/
theorem hasSequentialChars_concat (lc : JSString → JSString) (p : JSString) (c : CodeUnit)
    (hc : c ∈ specialChars) (hlc : lc (p ++ [c]) = lc p ++ [c])
    (h : hasSequentialChars lc (p ++ [c]) = true) : hasSequentialChars lc p = true := by
  unfold hasSequentialChars at h ⊢
  simp only [hlc] at h
  rw [List.any_eq_true] at h ⊢
  obtain ⟨seq, hseq, hor⟩ := h
  obtain ⟨h1, h2, h3⟩ := special_not_in_sequences c hc seq hseq
  refine ⟨seq, hseq, ?_⟩
  rw [Bool.or_eq_true] at hor ⊢
  rcases hor with ho | ho
  · exact Or.inl (includes_concat _ _ c h1 h3 ho)
  · exact Or.inr (includes_concat _ _ c h2 (by simpa using h3) ho)

theorem special_is_ascii : ∀ c ∈ specialChars,
    isLeadSurrogate c = false ∧ isTrailSurrogate c = false ∧
      inClass specialCharRegex c = true := by
  apply forall_mem_of_all
  decide

theorem regexTest_concat_of_inClass (cls : CharClass) (p : JSString) (c : CodeUnit)
    (h : inClass cls c = true) : regexTest cls (p ++ [c]) = true := by
  rw [regexTest_eq_true]
  exact ⟨c, by simp, h⟩

theorem regexTest_concat_mono (cls : CharClass) (p : JSString) (c : CodeUnit)
    (h : regexTest cls p = true) : regexTest cls (p ++ [c]) = true :=
  regexTest_of_subset cls p (p ++ [c]) (fun _ hx => List.mem_append_left _ hx) h

theorem classPoints_concat_mono (cls : CharClass) (p : JSString) (c : CodeUnit) :
    (if regexTest cls p then (15 : Int) else 0) ≤ (if regexTest cls (p ++ [c]) then 15 else 0) := by
  cases h : regexTest cls p with
  | false => cases regexTest cls (p ++ [c]) <;> simp
  | true => rw [regexTest_concat_mono cls p c h]

theorem specialPoints_concat_mono (pol : Policies) (p : JSString) (c : CodeUnit) :
    (if pol.requireSpecialChars = true ∧ pol.minSpecialChars ≤ (specialCharCount p : Int)
        then (20 : Int) else 0) ≤
      (if pol.requireSpecialChars = true ∧
        pol.minSpecialChars ≤ (specialCharCount (p ++ [c]) : Int) then 20 else 0) := by
  have hmono : specialCharCount p ≤ specialCharCount (p ++ [c]) := by
    rw [specialCharCount_eq, specialCharCount_eq]
    cases h : regexTest specialCharRegex p with
    | false => simp
    | true => rw [regexTest_concat_mono _ p c h]
  split_ifs with h1 h2 h2
  · exact le_refl _
  · exfalso; apply h2; exact ⟨h1.1, by omega⟩
  · norm_num
  · exact le_refl _

theorem lengthPoints_concat_mono (pol : Policies) (p : JSString) (c : CodeUnit) :
    (if pol.minLength ≤ (p.length : Int) then (20 : Int) else 0) ≤
      (if pol.minLength ≤ ((p ++ [c]).length : Int) then 20 else 0) := by
  rw [List.length_append, List.length_singleton]
  split_ifs <;> omega

/-- Appending a character of the special set that the password does not
hold never lowers the complexity bonus, provided lower-casing leaves the
appended character in place. -/
theorem calculateComplexityBonus_concat (lc : JSString → JSString) (p : JSString)
    (c : CodeUnit) (hc : c ∈ specialChars) (hnew : c ∉ p)
    (hlc : lc (p ++ [c]) = lc p ++ [c]) :
    calculateComplexityBonus lc p ≤ calculateComplexityBonus lc (p ++ [c]) := by
  obtain ⟨hlead, htrail, -⟩ := special_is_ascii c hc
  rw [calculateComplexityBonus_eq, calculateComplexityBonus_eq,
    uniqueCharCount_concat p c hlead htrail hnew, List.length_append, List.length_singleton]
  have h1 : (if 16 ≤ p.length then (10 : Int) else 0) ≤ (if 16 ≤ p.length + 1 then 10 else 0) := by
    split_ifs <;> omega
  have h2 : (if 20 ≤ p.length then (5 : Int) else 0) ≤ (if 20 ≤ p.length + 1 then 5 else 0) := by
    split_ifs <;> omega
  have h3 : (if 7 * p.length ≤ 10 * uniqueCharCount p then (10 : Int) else 0) ≤
      (if 7 * (p.length + 1) ≤ 10 * (uniqueCharCount p + 1) then 10 else 0) := by
    split_ifs <;> omega
  have h4 : (if hasRepeatingPatterns p then (0 : Int) else 5) ≤
      (if hasRepeatingPatterns (p ++ [c]) then 0 else 5) := by
    cases h : hasRepeatingPatterns (p ++ [c]) with
    | false => cases hasRepeatingPatterns p <;> simp
    | true => rw [hasRepeatingPatterns_concat p c hnew h]
  have h5 : (if hasSequentialChars lc p then (0 : Int) else 5) ≤
      (if hasSequentialChars lc (p ++ [c]) then 0 else 5) := by
    cases h : hasSequentialChars lc (p ++ [c]) with
    | false => cases hasSequentialChars lc p <;> simp
    | true => rw [hasSequentialChars_concat lc p c hc hlc h]
  omega

theorem score_concat_of_new_class (lc : JSString → JSString) (pol : Policies)
    (st : LocalStorage) (p : JSString) (c : CodeUnit) (ui : UserInfo) (cls : CharClass)
    (hcls : cls = upperClass ∨ cls = lowerClass ∨ cls = digitClass)
    (hmiss : regexTest cls p = false) (hc : inClass cls c = true) :
    (validatePassword lc pol st p ui).score ≤ (validatePassword lc pol st (p ++ [c]) ui).score := by
  rw [validatePassword_score, validatePassword_score]
  have hL := lengthPoints_concat_mono pol p c
  have hU := classPoints_concat_mono upperClass p c
  have hLo := classPoints_concat_mono lowerClass p c
  have hD := classPoints_concat_mono digitClass p c
  have hS := specialPoints_concat_mono pol p c
  obtain ⟨-, hB15⟩ := calculateComplexityBonus_bounds lc p
  obtain ⟨hB0, -⟩ := calculateComplexityBonus_bounds lc (p ++ [c])
  have hnew := regexTest_concat_of_inClass cls p c hc
  rcases hcls with h | h | h
  · subst h
    rw [hmiss, hnew] at hU ⊢
    simp only [Bool.false_eq_true, if_false, if_true] at hU ⊢
    omega
  · subst h
    rw [hmiss, hnew] at hLo ⊢
    simp only [Bool.false_eq_true, if_false, if_true] at hLo ⊢
    omega
  · subst h
    rw [hmiss, hnew] at hD ⊢
    simp only [Bool.false_eq_true, if_false, if_true] at hD ⊢
    omega

/-! ## The claims on policies, history, expiry and detectors -/

/-- C11. `validatePolicies` returns `isValid = true` exactly when
`minLength ≤ maxLength`, `minLength ≥ 8`, `maxAge ≥ warningDays` and
`minSpecialChars ≤ minLength` all hold, and the list `errors` holds one
message for each violated rule, all of them, in the order of the rules. -/
theorem C11_validatePolicies_reports_all (policies : Policies) :
    ((validatePolicies policies).isValid = true ↔
      policies.minLength ≤ policies.maxLength ∧ policies.minLength ≥ 8 ∧
        policies.maxAge ≥ policies.warningDays ∧
        policies.minSpecialChars ≤ policies.minLength) ∧
    (validatePolicies policies).errors =
      (if policies.minLength > policies.maxLength
        then [js "Minimum length cannot be greater than maximum length"] else []) ++
      (if policies.minLength < 8
        then [js "Minimum length should be at least 8 characters"] else []) ++
      (if policies.maxAge < policies.warningDays
        then [js "Warning days cannot be greater than password max age"] else []) ++
      (if policies.minSpecialChars > policies.minLength
        then [js "Minimum special characters cannot exceed minimum length"] else []) := by
  refine ⟨validatePolicies_isValid_iff policies, ?_⟩
  unfold validatePolicies
  simp only [List.nil_append]
  split_ifs <;> rfl

/-- C12. When `validatePolicies` rejects the candidate, `savePolicies`
leaves the panel's `currentPolicies`, the stored `passwordPolicies` entry and
the manager's policies (with its stored copy) as they were; the candidate
with `minLength = 20` and `maxLength = 10` is rejected with the
minimum-greater-than-maximum message. -/
theorem C12_savePolicies_rejected_unchanged :
    (∀ (now : Int) (policies : Policies) (state : AdminState),
      (validatePolicies policies).isValid = false →
        (savePolicies now policies state).currentPolicies = state.currentPolicies ∧
        (savePolicies now policies state).storedPolicies = state.storedPolicies ∧
        (savePolicies now policies state).managerPolicies = state.managerPolicies ∧
        (savePolicies now policies state).managerStoredPolicy = state.managerStoredPolicy) ∧
    (validatePolicies { defaultPolicies with minLength := 20, maxLength := 10 }).isValid = false ∧
    (validatePolicies { defaultPolicies with minLength := 20, maxLength := 10 }).errors =
      [js "Minimum length cannot be greater than maximum length"] := by
  refine ⟨fun now policies state h => ?_, by decide, by decide⟩
  unfold savePolicies
  simp [h]

/-- Witness of C12: a panel holding the default policies everywhere is
asked to save the candidate with `minLength = 20` and `maxLength = 10`. -/
theorem C12_savePolicies_rejected_unchanged_witness :
    (savePolicies 0 { defaultPolicies with minLength := 20, maxLength := 10 }
        { currentPolicies := defaultPolicies, storedPolicies := none,
          managerPolicies := some defaultPolicies, managerStoredPolicy := none,
          policyLogs := [], currentUser := none, alerts := [], status := none }).currentPolicies
        = defaultPolicies ∧
      (savePolicies 0 { defaultPolicies with minLength := 20, maxLength := 10 }
        { currentPolicies := defaultPolicies, storedPolicies := none,
          managerPolicies := some defaultPolicies, managerStoredPolicy := none,
          policyLogs := [], currentUser := none, alerts := [], status := none }).managerPolicies
        = some defaultPolicies :=
  ⟨(C12_savePolicies_rejected_unchanged.1 0 { defaultPolicies with minLength := 20, maxLength := 10 }
      { currentPolicies := defaultPolicies, storedPolicies := none,
        managerPolicies := some defaultPolicies, managerStoredPolicy := none,
        policyLogs := [], currentUser := none, alerts := [], status := none } (by decide)).1,
   (C12_savePolicies_rejected_unchanged.1 0 { defaultPolicies with minLength := 20, maxLength := 10 }
      { currentPolicies := defaultPolicies, storedPolicies := none,
        managerPolicies := some defaultPolicies, managerStoredPolicy := none,
        policyLogs := [], currentUser := none, alerts := [], status := none } (by decide)).2.2.1⟩

/-- C13, as stated, fails. With a window of 1, after `first` and `second`
were added to the empty history of `alice`, the password `p_n` is `p_1`
itself and is not reported as reused; with a window of 2 and an identity
whose `userId` is the empty string, `isPasswordReused` never reports
anything, `p_2` included. -/
theorem C13_window_of_one_evicts_pn :
    isPasswordReused
        ([js "first", js "second"].foldl
          (fun s p => addToPasswordHistory { defaultPolicies with preventReuse := 1 } s
            (js "alice") p) emptyStorage)
        (js "first") (some (js "alice")) = false ∧
      getPasswordHistory
        ([js "first", js "second"].foldl
          (fun s p => addToPasswordHistory { defaultPolicies with preventReuse := 1 } s
            (js "alice") p) emptyStorage)
        (js "alice") = [js "second"] ∧
      isPasswordReused
        ([js "first", js "second", js "third"].foldl
          (fun s p => addToPasswordHistory { defaultPolicies with preventReuse := 2 } s
            (js "") p) emptyStorage)
        (js "second") (some (js "")) = false := by
  decide

/-- C13, amended. For every window `n = preventReuse` (1 or more, and 0 as
well) and every identity
with a non-empty `userId` whose history starts empty: after
`addToPasswordHistory` was called `n + 1` times with pairwise distinct
passwords `p1, ..., p(n+1)` in that order, the stored history is
`p(n+1), ..., p2`, so `isPasswordReused(p1)` is false and, when `n ≥ 2`,
`isPasswordReused(p_n)` is true. -/
theorem C13_reuse_window (policies : Policies) (storage : LocalStorage)
    (userId p1 : JSString) (rest : List JSString) (n : Nat)
    (hwindow : policies.preventReuse = (n : Int)) (huser : userId ≠ [])
    (hempty : getPasswordHistory storage userId = [])
    (hcount : (p1 :: rest).length = n + 1) (hdistinct : (p1 :: rest).Nodup) :
    getPasswordHistory
        ((p1 :: rest).foldl (fun s p => addToPasswordHistory policies s userId p) storage)
        userId = rest.reverse ∧
      isPasswordReused
        ((p1 :: rest).foldl (fun s p => addToPasswordHistory policies s userId p) storage)
        p1 (some userId) = false ∧
      (2 ≤ n → ∀ pn, (p1 :: rest).get? (n - 1) = some pn →
        isPasswordReused
          ((p1 :: rest).foldl (fun s p => addToPasswordHistory policies s userId p) storage)
          pn (some userId) = true) := by
  have hlen : rest.length = n := by simpa using hcount
  have hhist : getPasswordHistory
      ((p1 :: rest).foldl (fun s p => addToPasswordHistory policies s userId p) storage)
      userId = rest.reverse := by
    rw [getPasswordHistory_foldl policies userId n hwindow (p1 :: rest) storage
      (by rw [hempty]; exact Nat.zero_le _), hempty, List.append_nil, List.reverse_cons,
      List.take_append_eq_append_take, List.length_reverse, hlen, Nat.sub_self, List.take_zero,
      List.append_nil, List.take_of_length_le (by rw [List.length_reverse, hlen])]
  refine ⟨hhist, ?_, ?_⟩
  · rw [isPasswordReused_eq _ _ _ huser, hhist]
    have : p1 ∉ rest := (List.nodup_cons.mp hdistinct).1
    simpa using this
  · intro h2 pn hpn
    rw [isPasswordReused_eq _ _ _ huser, hhist]
    have hidx : n - 1 = (n - 2) + 1 := by omega
    rw [hidx, List.get?_cons_succ] at hpn
    have : pn ∈ rest := List.get?_mem hpn
    simpa using this

/-- Witness of C13 (amended): a window of 2 and the passwords `first`,
`second`, `third` for `alice`. -/
theorem C13_reuse_window_witness :
    isPasswordReused
        ([js "first", js "second", js "third"].foldl
          (fun s p => addToPasswordHistory { defaultPolicies with preventReuse := 2 } s
            (js "alice") p) emptyStorage)
        (js "first") (some (js "alice")) = false ∧
      isPasswordReused
        ([js "first", js "second", js "third"].foldl
          (fun s p => addToPasswordHistory { defaultPolicies with preventReuse := 2 } s
            (js "alice") p) emptyStorage)
        (js "second") (some (js "alice")) = true :=
  ⟨(C13_reuse_window { defaultPolicies with preventReuse := 2 } emptyStorage (js "alice")
      (js "first") [js "second", js "third"] 2 (by decide) (by decide) (by decide)
      (by decide) (by decide)).2.1,
   (C13_reuse_window { defaultPolicies with preventReuse := 2 } emptyStorage (js "alice")
      (js "first") [js "second", js "third"] 2 (by decide) (by decide) (by decide)
      (by decide) (by decide)).2.2 (by decide) (js "second") (by decide)⟩

/-- C14. With `daysSince = floor((now - lastChanged) / 86,400,000)`, for a
signed-in user with a stored password record `checkPasswordExpiry` shows the
expired modal when `daysSince ≥ maxAge`, otherwise the warning with
`maxAge - daysSince` days remaining when `daysSince ≥ maxAge - warningDays`,
otherwise nothing; with `maxAge = 90` and `warningDays = 14` a change 76 days
ago gives the warning with 14 days, 90 days ago the expired modal and 75
days ago nothing. -/
theorem C14_expiry_decision (policies : Policies) (storage : LocalStorage)
    (user : JSString) (info : PasswordInfo) (now : Int) (huser : user ≠ [])
    (hinfo : getPasswordInfo storage user = some info) :
    daysSinceChange now info.lastChanged = (now - info.lastChanged) / 86400000 ∧
    (daysSinceChange now info.lastChanged ≥ policies.maxAge →
      checkPasswordExpiry policies storage (some user) now = ExpiryNotice.expired) ∧
    (daysSinceChange now info.lastChanged < policies.maxAge →
      daysSinceChange now info.lastChanged ≥ policies.maxAge - policies.warningDays →
      checkPasswordExpiry policies storage (some user) now =
        ExpiryNotice.warning (policies.maxAge - daysSinceChange now info.lastChanged)) ∧
    (daysSinceChange now info.lastChanged < policies.maxAge →
      daysSinceChange now info.lastChanged < policies.maxAge - policies.warningDays →
      checkPasswordExpiry policies storage (some user) now = ExpiryNotice.none) ∧
    (policies.maxAge = 90 → policies.warningDays = 14 →
      (now - info.lastChanged = 76 * 86400000 →
        checkPasswordExpiry policies storage (some user) now = ExpiryNotice.warning 14) ∧
      (now - info.lastChanged = 90 * 86400000 →
        checkPasswordExpiry policies storage (some user) now = ExpiryNotice.expired) ∧
      (now - info.lastChanged = 75 * 86400000 →
        checkPasswordExpiry policies storage (some user) now = ExpiryNotice.none)) := by
  rw [checkPasswordExpiry_eq policies storage user info now huser hinfo]
  refine ⟨by unfold daysSinceChange; norm_num, fun h => ?_, fun h1 h2 => ?_, fun h1 h2 => ?_,
    fun hA hW => ⟨fun h => ?_, fun h => ?_, fun h => ?_⟩⟩
  · rw [if_pos h]
  · rw [if_neg (by omega), if_pos h2]
  · rw [if_neg (by omega), if_neg (by omega)]
  · have hd : daysSinceChange now info.lastChanged = 76 := by
      unfold daysSinceChange; rw [h]; norm_num
    rw [hd, hA, hW]; rfl
  · have hd : daysSinceChange now info.lastChanged = 90 := by
      unfold daysSinceChange; rw [h]; norm_num
    rw [hd, hA, hW]; rfl
  · have hd : daysSinceChange now info.lastChanged = 75 := by
      unfold daysSinceChange; rw [h]; norm_num
    rw [hd, hA, hW]; rfl

/-- Witness of C14: the default policy (90 and 14 days), the user `alice`
whose record was written at time 0 by `saveNewPassword`, looked at 76 days
later. -/
theorem C14_expiry_decision_witness :
    checkPasswordExpiry defaultPolicies
        (saveNewPassword defaultPolicies emptyStorage 0 (js "alice") (js "first"))
        (some (js "alice")) (76 * 86400000) = ExpiryNotice.warning 14 :=
  (C14_expiry_decision defaultPolicies
      (saveNewPassword defaultPolicies emptyStorage 0 (js "alice") (js "first")) (js "alice")
      { lastChanged := 0, changeCount := 1 } (76 * 86400000) (by decide) (by decide)).2.2.2.2
    rfl rfl |>.1 (by decide)

/-- C15. For a fixed policy, storage and user, the expiry state is monotonic
in time under the order nothing < warning < expired: from `t1 ≤ t2` follows
`state(t1) ≤ state(t2)`. -/
theorem C15_expiry_monotonic (policies : Policies) (storage : LocalStorage)
    (currentUser : Option JSString) (t1 t2 : Int) (h : t1 ≤ t2) :
    expiryRank (checkPasswordExpiry policies storage currentUser t1) ≤
      expiryRank (checkPasswordExpiry policies storage currentUser t2) := by
  unfold checkPasswordExpiry
  cases truthy currentUser with
  | false => simp
  | true =>
    simp only [Bool.not_true, Bool.false_eq_true, if_false]
    cases getPasswordInfo storage (currentUser.getD []) with
    | none => simp
    | some info =>
      have hm := daysSinceChange_mono info.lastChanged t1 t2 h
      simp only
      split_ifs <;> simp only [expiryRank] <;> omega

/-- Witness of C15: under the default policy the record written at time 0
is looked at after 80 and after 95 days. -/
theorem C15_expiry_monotonic_witness :
    expiryRank (checkPasswordExpiry defaultPolicies
        (saveNewPassword defaultPolicies emptyStorage 0 (js "alice") (js "first"))
        (some (js "alice")) (80 * 86400000)) ≤
      expiryRank (checkPasswordExpiry defaultPolicies
        (saveNewPassword defaultPolicies emptyStorage 0 (js "alice") (js "first"))
        (some (js "alice")) (95 * 86400000)) :=
  C15_expiry_monotonic defaultPolicies
    (saveNewPassword defaultPolicies emptyStorage 0 (js "alice") (js "first"))
    (some (js "alice")) (80 * 86400000) (95 * 86400000) (by decide)

/-- C16, as stated, fails. The policies with `maxAge = warningDays = 30` and
with `maxAge = warningDays = 0` are accepted by `validatePolicies`; right
after `saveNewPassword` the first shows the warning with 30 days remaining
and the second the expired modal. -/
theorem C16_change_not_always_active :
    (validatePolicies { defaultPolicies with maxAge := 30, warningDays := 30 }).isValid = true ∧
      checkPasswordExpiry { defaultPolicies with maxAge := 30, warningDays := 30 }
        (saveNewPassword { defaultPolicies with maxAge := 30, warningDays := 30 } emptyStorage
          1000 (js "alice") (js "first"))
        (some (js "alice")) 1000 = ExpiryNotice.warning 30 ∧
      (validatePolicies { defaultPolicies with maxAge := 0, warningDays := 0 }).isValid = true ∧
      checkPasswordExpiry { defaultPolicies with maxAge := 0, warningDays := 0 }
        (saveNewPassword { defaultPolicies with maxAge := 0, warningDays := 0 } emptyStorage
          1000 (js "alice") (js "first"))
        (some (js "alice")) 1000 = ExpiryNotice.expired := by
  decide

/-- C16, amended. For every policy with `maxAge > 0` and
`warningDays < maxAge` (acceptance by `validatePolicies` only gives
`warningDays ≤ maxAge`), and every identity, the expiry decision taken at the
moment `saveNewPassword` recorded the change is nothing: neither the warning
nor the expired modal. -/
theorem C16_change_resets_to_active (policies : Policies) (storage : LocalStorage)
    (now : Int) (userId password : JSString)
    (hage : 0 < policies.maxAge) (hwarn : policies.warningDays < policies.maxAge) :
    checkPasswordExpiry policies (saveNewPassword policies storage now userId password)
      (some userId) now = ExpiryNotice.none := by
  cases userId with
  | nil => simp [checkPasswordExpiry, truthy]
  | cons a l =>
    obtain ⟨info, hinfo, hlast⟩ :=
      getPasswordInfo_saveNewPassword policies storage now (a :: l) password
    rw [checkPasswordExpiry_eq policies _ (a :: l) info now (by simp) hinfo, hlast]
    have hd : daysSinceChange now now = 0 := by
      unfold daysSinceChange; simp
    rw [hd, if_neg (by omega), if_neg (by omega)]

/-- Witness of C16 (amended): the default policy, 90 and 14 days, which
`validatePolicies` accepts. -/
theorem C16_change_resets_to_active_witness :
    (validatePolicies defaultPolicies).isValid = true ∧
      checkPasswordExpiry defaultPolicies
        (saveNewPassword defaultPolicies emptyStorage 1000 (js "alice") (js "first"))
        (some (js "alice")) 1000 = ExpiryNotice.none :=
  ⟨by decide,
   C16_change_resets_to_active defaultPolicies emptyStorage 1000 (js "alice") (js "first")
     (by decide) (by decide)⟩

/-- C17. If a password holds no uppercase letter (no lowercase letter, no
digit, no character of the special set) and one character of that class is
appended, the score `validatePassword` gives does not go down, whether or
not the policy requires the class. For the special set the host's
lower-casing is assumed to leave the appended character in place, as
`toLowerCase` does. -/
theorem C17_appending_missing_class (toLowerCase : JSString → JSString)
    (policies : Policies) (storage : LocalStorage) (p : JSString) (c : CodeUnit)
    (userInfo : UserInfo) :
    ((∀ x ∈ p, ¬(65 ≤ x.val ∧ x.val ≤ 90)) → (65 ≤ c.val ∧ c.val ≤ 90) →
      (validatePassword toLowerCase policies storage (p ++ [c]) userInfo).score ≥
        (validatePassword toLowerCase policies storage p userInfo).score) ∧
    ((∀ x ∈ p, ¬(97 ≤ x.val ∧ x.val ≤ 122)) → (97 ≤ c.val ∧ c.val ≤ 122) →
      (validatePassword toLowerCase policies storage (p ++ [c]) userInfo).score ≥
        (validatePassword toLowerCase policies storage p userInfo).score) ∧
    ((∀ x ∈ p, ¬(48 ≤ x.val ∧ x.val ≤ 57)) → (48 ≤ c.val ∧ c.val ≤ 57) →
      (validatePassword toLowerCase policies storage (p ++ [c]) userInfo).score ≥
        (validatePassword toLowerCase policies storage p userInfo).score) ∧
    ((∀ x ∈ p, x ∉ specialChars) → c ∈ specialChars →
      toLowerCase (p ++ [c]) = toLowerCase p ++ [c] →
      (validatePassword toLowerCase policies storage (p ++ [c]) userInfo).score ≥
        (validatePassword toLowerCase policies storage p userInfo).score) := by
  refine ⟨fun hmiss hc => ?_, fun hmiss hc => ?_, fun hmiss hc => ?_, fun hmiss hc hlc => ?_⟩
  · apply score_concat_of_new_class _ _ _ _ _ _ upperClass (Or.inl rfl)
    · rw [regexTest_eq_false]
      intro x hx
      have := hmiss x hx
      rw [← inClass_upperClass] at this
      simpa using this
    · exact (inClass_upperClass c).mpr hc
  · apply score_concat_of_new_class _ _ _ _ _ _ lowerClass (Or.inr (Or.inl rfl))
    · rw [regexTest_eq_false]
      intro x hx
      have := hmiss x hx
      rw [← inClass_lowerClass] at this
      simpa using this
    · exact (inClass_lowerClass c).mpr hc
  · apply score_concat_of_new_class _ _ _ _ _ _ digitClass (Or.inr (Or.inr rfl))
    · rw [regexTest_eq_false]
      intro x hx
      have := hmiss x hx
      rw [← inClass_digitClass] at this
      simpa using this
    · exact (inClass_digitClass c).mpr hc
  · have hnew : c ∉ p := fun hin => hmiss c hin hc
    rw [ge_iff_le, validatePassword_score, validatePassword_score]
    have hL := lengthPoints_concat_mono policies p c
    have hU := classPoints_concat_mono upperClass p c
    have hLo := classPoints_concat_mono lowerClass p c
    have hD := classPoints_concat_mono digitClass p c
    have hS := specialPoints_concat_mono policies p c
    have hB := calculateComplexityBonus_concat toLowerCase p c hc hnew hlc
    omega

/-- Witness of C17: under the default policy `!` is appended to `Abc1`, `Z`
to `abc1`, `z` to `ABC1` and `7` to `Abc!`. -/
theorem C17_appending_missing_class_witness :
    (validatePassword asciiToLowerCase defaultPolicies emptyStorage (js "abc1" ++ [90]) {}).score ≥
        (validatePassword asciiToLowerCase defaultPolicies emptyStorage (js "abc1") {}).score ∧
      (validatePassword asciiToLowerCase defaultPolicies emptyStorage (js "ABC1" ++ [122])
          {}).score ≥
        (validatePassword asciiToLowerCase defaultPolicies emptyStorage (js "ABC1") {}).score ∧
      (validatePassword asciiToLowerCase defaultPolicies emptyStorage (js "Abc!" ++ [55])
          {}).score ≥
        (validatePassword asciiToLowerCase defaultPolicies emptyStorage (js "Abc!") {}).score ∧
      (validatePassword asciiToLowerCase defaultPolicies emptyStorage (js "Abc1" ++ [33])
          {}).score ≥
        (validatePassword asciiToLowerCase defaultPolicies emptyStorage (js "Abc1") {}).score :=
  ⟨(C17_appending_missing_class asciiToLowerCase defaultPolicies emptyStorage (js "abc1") 90
      {}).1 (forall_mem_of_all _ (by decide)) (by decide),
   (C17_appending_missing_class asciiToLowerCase defaultPolicies emptyStorage (js "ABC1") 122
      {}).2.1 (forall_mem_of_all _ (by decide)) (by decide),
   (C17_appending_missing_class asciiToLowerCase defaultPolicies emptyStorage (js "Abc!") 55
      {}).2.2.1 (forall_mem_of_all _ (by decide)) (by decide),
   (C17_appending_missing_class asciiToLowerCase defaultPolicies emptyStorage (js "Abc1") 33
      {}).2.2.2 (forall_mem_of_all _ (by decide)) (by decide) (by decide)⟩

/-- C18. `hasRepeatingPatterns(p)` is true if and only if there are
positions `i < j` with `j + 3 ≤ length(p)` such that the three units
starting at `i` equal the three units starting at `j` (the occurrences may
overlap); it is false for every password shorter than 4 units. -/
theorem C18_hasRepeatingPatterns_iff (p : JSString) :
    (hasRepeatingPatterns p = true ↔
      ∃ i j, i < j ∧ j + 3 ≤ p.length ∧ (p.drop i).take 3 = (p.drop j).take 3) ∧
    (p.length < 4 → hasRepeatingPatterns p = false) := by
  refine ⟨hasRepeatingPatterns_iff p, fun hshort => ?_⟩
  cases h : hasRepeatingPatterns p with
  | false => rfl
  | true =>
    obtain ⟨i, j, hij, hj, -⟩ := (hasRepeatingPatterns_iff p).mp h
    omega

/-- Witness of C18: `aaaa` repeats `aaa` at the indices 0 and 1, and `abc`
is shorter than 4 units. -/
theorem C18_hasRepeatingPatterns_iff_witness :
    hasRepeatingPatterns (js "aaaa") = true ∧ hasRepeatingPatterns (js "abc") = false :=
  ⟨(C18_hasRepeatingPatterns_iff (js "aaaa")).1.mpr ⟨0, 1, by decide, by decide, by decide⟩,
   (C18_hasRepeatingPatterns_iff (js "abc")).2 (by decide)⟩

/-- C19. `hasSequentialChars(p)` is true if and only if the lower-cased `p`
contains, as a contiguous run, one of `abc`, `123`, `qwe`, `asd`, `zxc` or
one of their reverses `cba`, `321`, `ewq`, `dsa`, `cxz`; hence two passwords
with the same lower-casing get the same result. -/
theorem C19_hasSequentialChars_iff (toLowerCase : JSString → JSString) :
    (∀ p : JSString, hasSequentialChars toLowerCase p = true ↔
      ∃ s ∈ [js "abc", js "123", js "qwe", js "asd", js "zxc",
          js "cba", js "321", js "ewq", js "dsa", js "cxz"], s <:+: toLowerCase p) ∧
    (∀ p q : JSString, toLowerCase p = toLowerCase q →
      hasSequentialChars toLowerCase p = hasSequentialChars toLowerCase q) := by
  constructor
  · intro p
    have r1 : (js "abc").reverse = js "cba" := by decide
    have r2 : (js "123").reverse = js "321" := by decide
    have r3 : (js "qwe").reverse = js "ewq" := by decide
    have r4 : (js "asd").reverse = js "dsa" := by decide
    have r5 : (js "zxc").reverse = js "cxz" := by decide
    simp only [hasSequentialChars, sequences, List.any_cons, List.any_nil, Bool.or_eq_true,
      Bool.or_false, includes_iff, r1, r2, r3, r4, r5, List.mem_cons, List.mem_singleton,
      exists_eq_or_imp, exists_eq_left, List.not_mem_nil, false_and, exists_false, or_false]
    tauto
  · intro p q h
    simp only [hasSequentialChars, h]

/-- Witness of C19: `xAbCx` and `XABCX` have the same ASCII lower-casing. -/
theorem C19_hasSequentialChars_iff_witness :
    hasSequentialChars asciiToLowerCase (js "xAbCx") =
      hasSequentialChars asciiToLowerCase (js "XABCX") :=
  (C19_hasSequentialChars_iff asciiToLowerCase).2 (js "xAbCx") (js "XABCX") (by decide)

/-- C20. `isCommonPassword(p)` is true if and only if some entry `e` of the
20-entry list satisfies: the lower-cased `p` contains `e`, or `e` contains
the lower-cased `p`; so when lower-casing leaves them alone the empty
password and every fragment of a listed word are reported as common. -/
theorem C20_isCommonPassword_iff (toLowerCase : JSString → JSString) :
    commonPasswords.length = 20 ∧
    (∀ p : JSString, isCommonPassword toLowerCase p = true ↔
      ∃ e ∈ commonPasswords, e <:+: toLowerCase p ∨ toLowerCase p <:+: e) ∧
    (toLowerCase [] = [] → isCommonPassword toLowerCase [] = true) ∧
    (∀ e ∈ commonPasswords, ∀ f : JSString, f <:+: e → toLowerCase f = f →
      isCommonPassword toLowerCase f = true) := by
  have hiff : ∀ p : JSString, isCommonPassword toLowerCase p = true ↔
      ∃ e ∈ commonPasswords, e <:+: toLowerCase p ∨ toLowerCase p <:+: e := by
    intro p
    simp only [isCommonPassword, List.any_eq_true, Bool.or_eq_true, includes_iff]
  refine ⟨by decide, hiff, fun h0 => ?_, fun e he f hf hlc => ?_⟩
  · rw [hiff, h0]
    exact ⟨js "password", by decide, Or.inr List.nil_infix⟩
  · rw [hiff, hlc]
    exact ⟨e, he, Or.inr hf⟩

/-- Witness of C20: with ASCII lower-casing the empty password and the
fragment `ssw` of `password` are common. -/
theorem C20_isCommonPassword_iff_witness :
    isCommonPassword asciiToLowerCase [] = true ∧
      isCommonPassword asciiToLowerCase (js "ssw") = true :=
  ⟨(C20_isCommonPassword_iff asciiToLowerCase).2.2.1 (by decide),
   (C20_isCommonPassword_iff asciiToLowerCase).2.2.2 (js "password") (by decide) (js "ssw")
     ⟨js "pa", js "ord", by decide⟩ (by decide)⟩

/-! ## Personal information and reuse -/

theorem truthy_iff (o : Option JSString) : truthy o = true ↔ ∃ s, o = some s ∧ s ≠ [] := by
  cases o with
  | none => simp [truthy]
  | some s =>
    cases s with
    | nil => simp [truthy]
    | cons a l => simp [truthy]

theorem fieldMatch_iff (lc : JSString → JSString) (p : JSString) (f : Option JSString) :
    (if truthy f = true then includes (lc p) (lc (f.getD [])) || includes (lc (f.getD [])) (lc p)
      else false) = true ↔
      ∃ s, f = some s ∧ s ≠ [] ∧ (lc s <:+: lc p ∨ lc p <:+: lc s) := by
  by_cases h : truthy f = true
  · rw [if_pos h, Bool.or_eq_true, includes_iff, includes_iff]
    obtain ⟨s, hs, hne⟩ := (truthy_iff f).mp h
    subst hs
    simp only [Option.getD_some]
    constructor
    · intro hor; exact ⟨s, rfl, hne, hor⟩
    · rintro ⟨t, ht, -, hor⟩
      cases ht
      exact hor
  · rw [if_neg h]
    constructor
    · intro hc; cases hc
    · rintro ⟨s, hs, hne, -⟩
      exact absurd ((truthy_iff f).mpr ⟨s, hs, hne⟩) h

theorem containsUserInfo_iff (lc : JSString → JSString) (p : JSString) (info : UserInfo) :
    containsUserInfo lc p (some info) = true ↔
      ∃ v ∈ [info.firstName, info.lastName, info.email, info.username],
        ∃ s, v = some s ∧ s ≠ [] ∧ (lc s <:+: lc p ∨ lc p <:+: lc s) := by
  simp only [containsUserInfo, checkFields, List.any_cons, List.any_nil, Bool.or_false,
    Bool.or_eq_true, fieldMatch_iff, List.mem_cons, List.mem_singleton, exists_eq_or_imp,
    exists_eq_left, List.not_mem_nil, false_and, exists_false, or_false]

theorem passwordReusedIssue_tenth (pol : Policies) : (passwordReusedIssue pol)[9]? = some 99 := by
  unfold passwordReusedIssue
  rw [List.append_assoc, List.getElem?_append_left (by decide)]
  decide

theorem tooShortIssue_tenth (pol : Policies) : (tooShortIssue pol)[9]? = some 109 := by
  unfold tooShortIssue
  rw [List.append_assoc, List.getElem?_append_left (by decide)]
  decide

theorem tooLongIssue_tenth (pol : Policies) : (tooLongIssue pol)[9]? = some 109 := by
  unfold tooLongIssue
  rw [List.append_assoc, List.getElem?_append_left (by decide)]
  decide

theorem insufficientSpecialIssue_tenth (pol : Policies) :
    (insufficientSpecialIssue pol)[9]? = some 109 := by
  unfold insufficientSpecialIssue
  rw [List.append_assoc, List.getElem?_append_left (by decide)]
  decide

/-- The reuse issue text differs from the text of every other issue. -/
theorem passwordReusedIssue_ne (pol : Policies) :
    passwordReusedIssue pol ≠ tooShortIssue pol ∧ passwordReusedIssue pol ≠ tooLongIssue pol ∧
      passwordReusedIssue pol ≠ missingUppercaseIssue ∧
      passwordReusedIssue pol ≠ missingLowercaseIssue ∧
      passwordReusedIssue pol ≠ missingNumberIssue ∧
      passwordReusedIssue pol ≠ insufficientSpecialIssue pol ∧
      passwordReusedIssue pol ≠ commonPasswordIssue ∧
      passwordReusedIssue pol ≠ personalInfoIssue := by
  have h := passwordReusedIssue_tenth pol
  have key : ∀ (t : JSString) (u : CodeUnit), t[9]? = some u → u ≠ 99 →
      passwordReusedIssue pol ≠ t := by
    intro t u ht hu heq
    rw [heq, ht] at h
    exact hu (Option.some.inj h)
  exact ⟨key _ _ (tooShortIssue_tenth pol) (by decide), key _ _ (tooLongIssue_tenth pol) (by decide),
    key _ 109 (by decide) (by decide), key _ 109 (by decide) (by decide),
    key _ 109 (by decide) (by decide), key _ _ (insufficientSpecialIssue_tenth pol) (by decide),
    key _ 105 (by decide) (by decide), key _ 115 (by decide) (by decide)⟩

/-- The reuse issue is in the issue list exactly when the reuse check
fired. -/
theorem passwordReusedIssue_mem_iff (lc : JSString → JSString) (pol : Policies)
    (st : LocalStorage) (pw : JSString) (ui : UserInfo) :
    passwordReusedIssue pol ∈ (validatePassword lc pol st pw ui).issues ↔
      isPasswordReused st pw ui.userId = true := by
  obtain ⟨h1, h2, h3, h4, h5, h6, h7, h8⟩ := passwordReusedIssue_ne pol
  rw [validatePassword_issues]
  simp only [List.mem_append]
  constructor
  · intro h
    rcases h with (((((((h | h) | h) | h) | h) | h) | h) | h) | h
    · split at h
      · exact absurd (List.mem_singleton.mp h) h1
      · simp at h
    · split at h
      · exact absurd (List.mem_singleton.mp h) h2
      · simp at h
    · split at h
      · exact absurd (List.mem_singleton.mp h) h3
      · simp at h
    · split at h
      · exact absurd (List.mem_singleton.mp h) h4
      · simp at h
    · split at h
      · exact absurd (List.mem_singleton.mp h) h5
      · simp at h
    · split at h
      · exact absurd (List.mem_singleton.mp h) h6
      · simp at h
    · split at h
      · exact absurd (List.mem_singleton.mp h) h7
      · simp at h
    · split at h
      · exact absurd (List.mem_singleton.mp h) h8
      · simp at h
    · split at h
      · assumption
      · simp at h
  · intro h
    right
    rw [if_pos h]
    exact List.mem_singleton.mpr rfl

theorem isPasswordReused_iff (st : LocalStorage) (pw : JSString) (userId : Option JSString) :
    isPasswordReused st pw userId = true ↔
      ∃ u, userId = some u ∧ u ≠ [] ∧ pw ∈ getPasswordHistory st u := by
  constructor
  · intro h
    cases userId with
    | none => simp [isPasswordReused, truthy] at h
    | some u =>
      cases u with
      | nil => simp [isPasswordReused, truthy] at h
      | cons a l =>
        rw [isPasswordReused_eq _ _ _ (by simp)] at h
        exact ⟨a :: l, rfl, by simp, of_decide_eq_true h⟩
  · rintro ⟨u, hu, hne, hmem⟩
    rw [hu, isPasswordReused_eq _ _ _ hne]
    exact decide_eq_true hmem

theorem getPasswordHistory_setPasswordInfo (st : LocalStorage) (user : JSString)
    (info : PasswordInfo) (u : JSString) :
    getPasswordHistory (setPasswordInfo st user info) u = getPasswordHistory st u := rfl

theorem getPasswordInfo_addToPasswordHistory (pol : Policies) (st : LocalStorage)
    (user pw u : JSString) :
    getPasswordInfo (addToPasswordHistory pol st user pw) u = getPasswordInfo st u := rfl

theorem getPasswordInfo_setPasswordInfo (st : LocalStorage) (user : JSString)
    (info : PasswordInfo) :
    getPasswordInfo (setPasswordInfo st user info) user = some info := by
  simp [getPasswordInfo, setPasswordInfo]

theorem pick_cons (b : Bool) (t : JSString) (rest : List (Bool × JSString)) :
    (((b, t) :: rest).filter fun r => r.1).map (fun r => r.2) =
      (if b then [t] else []) ++ (rest.filter fun r => r.1).map (fun r => r.2) := by
  cases b <;> simp

/-! ## What the generator puts into a password -/

theorem getRandomChar_subset (str : JSString) (r : Nat) :
    ∀ c ∈ getRandomChar str r, c ∈ str := by
  intro c hc
  unfold getRandomChar charAt at hc
  cases h : str.get? (r % str.length) with
  | none => rw [h] at hc; simp at hc
  | some d =>
    rw [h] at hc
    simp only [List.mem_singleton] at hc
    rw [hc]
    exact List.get?_mem h

theorem getRandomChar_exists (str : JSString) (hs : str ≠ []) (r : Nat) :
    ∃ c, c ∈ getRandomChar str r ∧ c ∈ str := by
  have hlen := getRandomChar_length str hs r
  cases hg : getRandomChar str r with
  | nil => rw [hg] at hlen; simp at hlen
  | cons c rest =>
    exact ⟨c, List.mem_cons_self _ _, getRandomChar_subset str r c (by rw [hg]; simp)⟩

theorem fillLoop_subset (allChars : JSString) (rand : Nat → Nat) :
    ∀ (iterations draw : Nat) (password : JSString), ∀ c ∈ fillLoop allChars rand iterations draw
      password, c ∈ password ∨ c ∈ allChars := by
  intro iterations
  induction iterations with
  | zero => intro draw password c hc; exact Or.inl (by simpa [fillLoop] using hc)
  | succ k ih =>
    intro draw password c hc
    unfold fillLoop at hc
    rcases ih _ _ c hc with h | h
    · rcases List.mem_append.mp h with h1 | h1
      · exact Or.inl h1
      · exact Or.inr (getRandomChar_subset _ _ c h1)
    · exact Or.inr h

/-- The units of a generated password come from the four alphabets, and
each alphabet supplies at least one of them. -/
theorem generateSecurePassword_units (rand : Nat → Nat) (shuffle : JSString → JSString)
    (length : Int) (hshuffle : ∀ s, (shuffle s).Perm s) :
    (∀ c ∈ generateSecurePassword rand shuffle length,
        c ∈ uppercase ++ lowercase ++ numbers ++ specialChars) ∧
      (∃ c ∈ generateSecurePassword rand shuffle length, c ∈ uppercase) ∧
      (∃ c ∈ generateSecurePassword rand shuffle length, c ∈ lowercase) ∧
      (∃ c ∈ generateSecurePassword rand shuffle length, c ∈ numbers) ∧
      (∃ c ∈ generateSecurePassword rand shuffle length, c ∈ specialChars) := by
  unfold generateSecurePassword
  simp only [List.nil_append]
  obtain ⟨cU, hU1, hU2⟩ := getRandomChar_exists uppercase (by decide) (rand 0)
  obtain ⟨cL, hL1, hL2⟩ := getRandomChar_exists lowercase (by decide) (rand 1)
  obtain ⟨cD, hD1, hD2⟩ := getRandomChar_exists numbers (by decide) (rand 2)
  obtain ⟨cS, hS1, hS2⟩ := getRandomChar_exists specialChars (by decide) (rand 3)
  have hsubU := getRandomChar_subset uppercase (rand 0)
  have hsubL := getRandomChar_subset lowercase (rand 1)
  have hsubD := getRandomChar_subset numbers (rand 2)
  have hsubS := getRandomChar_subset specialChars (rand 3)
  generalize hpre : getRandomChar uppercase (rand 0) ++ getRandomChar lowercase (rand 1) ++
    getRandomChar numbers (rand 2) ++ getRandomChar specialChars (rand 3) = pre
  have hmem : ∀ c ∈ pre, c ∈ shuffle (fillLoop (uppercase ++ lowercase ++ numbers ++ specialChars)
      rand (length - (pre.length : Int)).toNat 4 pre) := by
    intro c hc
    exact (hshuffle _).mem_iff.mpr (mem_fillLoop _ _ _ _ _ _ hc)
  have hpresub : ∀ c ∈ pre, c ∈ uppercase ++ lowercase ++ numbers ++ specialChars := by
    intro c hc
    rw [← hpre] at hc
    simp only [List.mem_append] at hc ⊢
    rcases hc with ((h | h) | h) | h
    · exact Or.inl (Or.inl (Or.inl (hsubU c h)))
    · exact Or.inl (Or.inl (Or.inr (hsubL c h)))
    · exact Or.inl (Or.inr (hsubD c h))
    · exact Or.inr (hsubS c h)
  refine ⟨fun c hc => ?_, ⟨cU, hmem cU ?_, hU2⟩, ⟨cL, hmem cL ?_, hL2⟩, ⟨cD, hmem cD ?_, hD2⟩,
    ⟨cS, hmem cS ?_, hS2⟩⟩
  · have hc' := (hshuffle _).mem_iff.mp hc
    rcases fillLoop_subset _ _ _ _ _ c hc' with h | h
    · exact hpresub c h
    · exact h
  · rw [← hpre]; simp [hU1]
  · rw [← hpre]; simp [hL1]
  · rw [← hpre]; simp [hD1]
  · rw [← hpre]; simp [hS1]

theorem mem_uppercase_iff : ∀ c ∈ uppercase, 65 ≤ c.val ∧ c.val ≤ 90 := by
  apply forall_mem_of_all
  decide

theorem mem_lowercase_iff : ∀ c ∈ lowercase, 97 ≤ c.val ∧ c.val ≤ 122 := by
  apply forall_mem_of_all
  decide

theorem mem_numbers_iff : ∀ c ∈ numbers, 48 ≤ c.val ∧ c.val ≤ 57 := by
  apply forall_mem_of_all
  decide

theorem issues_nil_facts (lc : JSString → JSString) (pol : Policies) (st : LocalStorage)
    (pw : JSString) (ui : UserInfo) (h : (validatePassword lc pol st pw ui).issues = []) :
    pol.minLength ≤ (pw.length : Int) ∧
      (pol.requireUppercase = true → regexTest upperClass pw = true) ∧
      (pol.requireLowercase = true → regexTest lowerClass pw = true) ∧
      (pol.requireNumbers = true → regexTest digitClass pw = true) ∧
      (pol.requireSpecialChars = true → pol.minSpecialChars ≤ (specialCharCount pw : Int)) := by
  rw [validatePassword_issues] at h
  simp only [List.append_eq_nil, ite_eq_right_iff, List.cons_ne_nil, imp_false, not_lt,
    Bool.and_eq_true, Bool.not_eq_true', not_and, Bool.not_eq_false] at h
  obtain ⟨⟨⟨⟨⟨⟨⟨⟨h1, -⟩, h3⟩, h4⟩, h5⟩, h6⟩, -⟩, -⟩, -⟩ := h
  exact ⟨h1, h3, h4, h5, h6⟩

/-! ## The special-character class -/

theorem inClass_exists (cls : CharClass) (c : CodeUnit) (h : inClass cls c = true) :
    ∃ r ∈ cls, r.1 ≤ c ∧ c ≤ r.2 := by
  unfold inClass at h
  rw [List.any_eq_true] at h
  obtain ⟨r, hr, hc⟩ := h
  rw [Bool.and_eq_true, decide_eq_true_eq, decide_eq_true_eq] at hc
  exact ⟨r, hr, hc⟩

theorem specialCharRegex_ascii (c : CodeUnit) (h : inClass specialCharRegex c = true) :
    c.val < 128 := by
  obtain ⟨r, hr, -, hle⟩ := inClass_exists _ _ h
  have hall : specialCharRegex.all (fun r => decide (r.2.val < 128)) = true := by decide
  have := of_decide_eq_true (List.all_eq_true.mp hall r hr)
  have hle' : c.val ≤ r.2.val := hle
  omega

theorem specialChars_ascii : ∀ c ∈ specialChars, c.val < 128 := by
  apply forall_mem_of_all
  decide

set_option maxRecDepth 20000 in
theorem specialClass_table : ∀ n : Fin 128,
    (inClass specialCharRegex ⟨n.val, by omega⟩ = true ↔
      ((⟨n.val, by omega⟩ : CodeUnit) ∈ specialChars ∨ n.val = 47 ∨ (48 ≤ n.val ∧ n.val ≤ 57))) := by
  decide

/-- The class of `specialCharRegex` matches the special set and, through
the range from `+` to `=`, the slash and the ten digits as well. -/
theorem inClass_specialCharRegex_iff (c : CodeUnit) :
    inClass specialCharRegex c = true ↔
      c ∈ specialChars ∨ c.val = 47 ∨ (48 ≤ c.val ∧ c.val ≤ 57) := by
  by_cases hc : c.val < 128
  · exact specialClass_table ⟨c.val, hc⟩
  · constructor
    · intro h; exact absurd (specialCharRegex_ascii c h) hc
    · rintro (h | h | h)
      · exact absurd (specialChars_ascii c h) hc
      · omega
      · omega

/-! ## Suggestions -/

/-- The suggestions are seven optional blocks in a fixed order, one for each
keyword looked for in the issue texts. -/
theorem generateSuggestions_eq (pw : JSString) (issues : List JSString) :
    generateSuggestions pw issues =
      (if issues.any (fun issue => includes issue (js "length")) then
        [js "Try using a passphrase with multiple words",
          js "Add more characters to meet minimum length requirement"] else []) ++
      (if issues.any (fun issue => includes issue (js "uppercase")) then
        [js "Add at least one uppercase letter (A-Z)"] else []) ++
      (if issues.any (fun issue => includes issue (js "lowercase")) then
        [js "Add at least one lowercase letter (a-z)"] else []) ++
      (if issues.any (fun issue => includes issue (js "number")) then
        [js "Include at least one number (0-9)"] else []) ++
      (if issues.any (fun issue => includes issue (js "special")) then
        [js "Add special characters like: !@#$%^&*()..."] else []) ++
      (if issues.any (fun issue => includes issue (js "common")) then
        [js "Avoid common passwords and dictionary words",
          js "Create a unique combination of words and characters"] else []) ++
      (if issues.any (fun issue => includes issue (js "personal")) then
        [js "Avoid using your name, email, or other personal information"] else []) := by
  have hsp : js "Add special characters like: " ++ substring specialChars 0 10 ++ js "..." =
      js "Add special characters like: !@#$%^&*()..." := by decide
  unfold generateSuggestions
  simp only [hsp]
  generalize (issues.any fun issue => includes issue (js "length")) = b1
  generalize (issues.any fun issue => includes issue (js "uppercase")) = b2
  generalize (issues.any fun issue => includes issue (js "lowercase")) = b3
  generalize (issues.any fun issue => includes issue (js "number")) = b4
  generalize (issues.any fun issue => includes issue (js "special")) = b5
  generalize (issues.any fun issue => includes issue (js "common")) = b6
  generalize (issues.any fun issue => includes issue (js "personal")) = b7
  cases b1 <;> cases b2 <;> cases b3 <;> cases b4 <;> cases b5 <;> cases b6 <;> cases b7 <;> rfl

theorem validatePassword_suggestions (lc : JSString → JSString) (pol : Policies)
    (st : LocalStorage) (pw : JSString) (ui : UserInfo) :
    (validatePassword lc pol st pw ui).suggestions =
      generateSuggestions pw (validatePassword lc pol st pw ui).issues := by
  simp [validatePassword]

theorem any_includes_of_mem (issues : List JSString) (issue keyword : JSString)
    (hmem : issue ∈ issues) (hkey : includes issue keyword = true) :
    issues.any (fun i => includes i keyword) = true :=
  List.any_eq_true.mpr ⟨issue, hmem, hkey⟩

theorem insufficientSpecialIssue_keyword (pol : Policies) :
    includes (insufficientSpecialIssue pol) (js "special") = true := by
  rw [includes_iff]
  refine ⟨js "Password must contain at least " ++ numberToString pol.minSpecialChars ++ [32],
    js " characters", ?_⟩
  have h : js " special characters" = [32] ++ js "special" ++ js " characters" := by decide
  unfold insufficientSpecialIssue
  rw [h]
  simp only [List.append_assoc]

theorem option_sublist (cond : Prop) [Decidable cond] (b : Bool) (texts : List JSString)
    (h : cond → b = true) :
    (if cond then texts else []).Sublist (if b then texts else []) := by
  by_cases hc : cond
  · rw [if_pos hc, h hc]
    exact List.Sublist.refl _
  · rw [if_neg hc]
    exact List.nil_sublist _

/-! ## The issue list against the specification's sequence -/

theorem regexTest_upperClass_eq (pw : JSString) :
    regexTest upperClass pw = pw.any fun c => decide (65 ≤ c.val ∧ c.val ≤ 90) := by
  unfold regexTest
  congr 1
  funext c
  rw [Bool.eq_iff_iff, inClass_upperClass, decide_eq_true_eq]

theorem regexTest_lowerClass_eq (pw : JSString) :
    regexTest lowerClass pw = pw.any fun c => decide (97 ≤ c.val ∧ c.val ≤ 122) := by
  unfold regexTest
  congr 1
  funext c
  rw [Bool.eq_iff_iff, inClass_lowerClass, decide_eq_true_eq]

theorem regexTest_digitClass_eq (pw : JSString) :
    regexTest digitClass pw = pw.any fun c => decide (48 ≤ c.val ∧ c.val ≤ 57) := by
  unfold regexTest
  congr 1
  funext c
  rw [Bool.eq_iff_iff, inClass_digitClass, decide_eq_true_eq]

/-- The issue list splits into the violated length and class rules, the
special-character entry the code computes, the violated content rules and
the reuse entry the code computes. -/
theorem validatePassword_issues_split (lc : JSString → JSString) (pol : Policies)
    (st : LocalStorage) (pw : JSString) (ui : UserInfo) :
    (validatePassword lc pol st pw ui).issues =
      violatedLengthAndClassRules pol pw ++
      (if pol.requireSpecialChars = true ∧ (specialCharCount pw : Int) < pol.minSpecialChars
        then [insufficientSpecialIssue pol] else []) ++
      violatedContentRules lc pol pw ui ++
      (if isPasswordReused st pw ui.userId then [passwordReusedIssue pol] else []) := by
  rw [validatePassword_issues, regexTest_upperClass_eq, regexTest_lowerClass_eq,
    regexTest_digitClass_eq]
  unfold violatedLengthAndClassRules violatedContentRules
  simp only [List.append_assoc]

/-- Where special characters are not required, the reuse window is positive
and the identifier is not the empty string, the issue list is the list of
the rules the password violates. -/
theorem issues_eq_violatedRules (lc : JSString → JSString) (pol : Policies)
    (st : LocalStorage) (pw : JSString) (ui : UserInfo)
    (hspecial : pol.requireSpecialChars = false) (hreuse : 0 < pol.preventReuse)
    (huser : ui.userId ≠ some []) :
    (validatePassword lc pol st pw ui).issues = violatedRules lc pol st pw ui := by
  rw [validatePassword_issues_split]
  unfold violatedRules violatedSpecialRule violatedReuseRule
  have hS : ¬ (pol.requireSpecialChars = true ∧
      (specialCharCount pw : Int) < pol.minSpecialChars) := by simp [hspecial]
  have hS2 : ¬ (pol.requireSpecialChars = true ∧
      (specialCharsIn pw : Int) < pol.minSpecialChars) := by simp [hspecial]
  rw [if_neg hS, if_neg hS2]
  congr 1
  cases hu : ui.userId with
  | none => simp [isPasswordReused, truthy]
  | some u =>
    have hne : u ≠ [] := fun h => huser (by rw [hu, h])
    by_cases hmem : pw ∈ getPasswordHistory st u
    · have : isPasswordReused st pw (some u) = true :=
        (isPasswordReused_iff st pw (some u)).mpr ⟨u, rfl, hne, hmem⟩
      simp [this, hreuse, hmem]
    · have : isPasswordReused st pw (some u) = false := by
        cases h : isPasswordReused st pw (some u) with
        | false => rfl
        | true =>
          obtain ⟨v, hv, -, hin⟩ := (isPasswordReused_iff st pw (some u)).mp h
          cases hv
          exact absurd hin hmem
      simp [this, hmem]

/-! ## The claims on personal information, suggestions, reuse, the generator and the verdict -/

/-- C21. `containsUserInfo(p, identity)` is true if and only if the identity
is present and, for some field among `firstName`, `lastName`, `email`,
`username` whose value `v` is a non-empty string, the lower-cased `p`
contains the lower-cased `v` or the lower-cased `v` contains the lower-cased
`p`; it is false when the identity is absent and when each of the four
fields is missing or empty. -/
theorem C21_containsUserInfo_iff (toLowerCase : JSString → JSString) (p : JSString) :
    (∀ identity : Option UserInfo, containsUserInfo toLowerCase p identity = true ↔
      ∃ info, identity = some info ∧
        ∃ v ∈ [info.firstName, info.lastName, info.email, info.username],
          ∃ s, v = some s ∧ s ≠ [] ∧
            (toLowerCase s <:+: toLowerCase p ∨ toLowerCase p <:+: toLowerCase s)) ∧
    containsUserInfo toLowerCase p none = false ∧
    (∀ info : UserInfo,
      (info.firstName = none ∨ info.firstName = some []) →
      (info.lastName = none ∨ info.lastName = some []) →
      (info.email = none ∨ info.email = some []) →
      (info.username = none ∨ info.username = some []) →
      containsUserInfo toLowerCase p (some info) = false) := by
  refine ⟨fun identity => ?_, rfl, fun info h1 h2 h3 h4 => ?_⟩
  · cases identity with
    | none => simp [containsUserInfo]
    | some info =>
      rw [containsUserInfo_iff]
      constructor
      · intro h; exact ⟨info, rfl, h⟩
      · rintro ⟨info2, hi, h⟩
        cases hi
        exact h
  · cases hc : containsUserInfo toLowerCase p (some info) with
    | false => rfl
    | true =>
      exfalso
      obtain ⟨v, hv, s, hs, hne, -⟩ := (containsUserInfo_iff toLowerCase p info).mp hc
      simp only [List.mem_cons, List.mem_singleton, List.not_mem_nil, or_false] at hv
      rcases hv with hv | hv | hv | hv <;> subst hv
      · rcases h1 with h | h <;> rw [h] at hs <;> cases hs
        exact hne rfl
      · rcases h2 with h | h <;> rw [h] at hs <;> cases hs
        exact hne rfl
      · rcases h3 with h | h <;> rw [h] at hs <;> cases hs
        exact hne rfl
      · rcases h4 with h | h <;> rw [h] at hs <;> cases hs
        exact hne rfl

/-- Witness of C21: an identity whose only field is an empty first name,
and the password `xxANNxx` against the first name `Ann`. -/
theorem C21_containsUserInfo_iff_witness :
    containsUserInfo asciiToLowerCase (js "secret") (some { firstName := some [] }) = false ∧
      containsUserInfo asciiToLowerCase (js "xxANNxx") (some { firstName := some (js "Ann") })
        = true :=
  ⟨(C21_containsUserInfo_iff asciiToLowerCase (js "secret")).2.2 { firstName := some [] }
      (Or.inr rfl) (Or.inl rfl) (Or.inl rfl) (Or.inl rfl),
   ((C21_containsUserInfo_iff asciiToLowerCase (js "xxANNxx")).1
      (some { firstName := some (js "Ann") })).mpr
     ⟨{ firstName := some (js "Ann") }, rfl, some (js "Ann"), by simp, js "Ann", rfl,
      by decide, Or.inl ⟨js "xx", js "xx", by decide⟩⟩⟩

/-- C22, as stated, fails. Under the default policy with
`minSpecialChars = 1`, the password `C0rrect-Horse-Battery99!!` found in the
history of `alice` gets the password-reused issue alone and no suggestion at
all; and `Ab1!xyz` gets the too-short issue alone and no suggestion either,
the text `Add more characters to meet minimum length requirement` not being
among the suggestions. -/
theorem C22_issue_without_suggestion :
    (validatePassword asciiToLowerCase { defaultPolicies with minSpecialChars := 1 }
        (setPasswordHistory emptyStorage (js "alice") [js "C0rrect-Horse-Battery99!!"])
        (js "C0rrect-Horse-Battery99!!") { userId := some (js "alice") }).issues =
        [js "Password cannot be one of your last 5 passwords"] ∧
      (validatePassword asciiToLowerCase { defaultPolicies with minSpecialChars := 1 }
        (setPasswordHistory emptyStorage (js "alice") [js "C0rrect-Horse-Battery99!!"])
        (js "C0rrect-Horse-Battery99!!") { userId := some (js "alice") }).suggestions = [] ∧
      (validatePassword asciiToLowerCase { defaultPolicies with minSpecialChars := 1 }
        emptyStorage (js "Ab1!xyz") {}).issues =
        [js "Password must be at least 12 characters long"] ∧
      (validatePassword asciiToLowerCase { defaultPolicies with minSpecialChars := 1 }
        emptyStorage (js "Ab1!xyz") {}).suggestions = [] := by
  decide

/-- C22, amended. Each missing-uppercase, missing-lowercase, missing-number,
insufficient-special-characters, common-password and personal-information
issue that `validatePassword` detects contributes its remediation text to the
suggestions, in issue-detection order; so the suggestion list is not empty
whenever the issue list holds one of these six issues. -/
theorem C22_suggestions_follow_issues (toLowerCase : JSString → JSString)
    (policies : Policies) (storage : LocalStorage) (password : JSString)
    (userInfo : UserInfo) :
    ((if missingUppercaseIssue ∈
          (validatePassword toLowerCase policies storage password userInfo).issues
        then [js "Add at least one uppercase letter (A-Z)"] else []) ++
      (if missingLowercaseIssue ∈
          (validatePassword toLowerCase policies storage password userInfo).issues
        then [js "Add at least one lowercase letter (a-z)"] else []) ++
      (if missingNumberIssue ∈
          (validatePassword toLowerCase policies storage password userInfo).issues
        then [js "Include at least one number (0-9)"] else []) ++
      (if insufficientSpecialIssue policies ∈
          (validatePassword toLowerCase policies storage password userInfo).issues
        then [js "Add special characters like: !@#$%^&*()..."] else []) ++
      (if commonPasswordIssue ∈
          (validatePassword toLowerCase policies storage password userInfo).issues
        then [js "Avoid common passwords and dictionary words",
          js "Create a unique combination of words and characters"] else []) ++
      (if personalInfoIssue ∈
          (validatePassword toLowerCase policies storage password userInfo).issues
        then [js "Avoid using your name, email, or other personal information"]
        else [])).Sublist
        (validatePassword toLowerCase policies storage password userInfo).suggestions ∧
    ((missingUppercaseIssue ∈
          (validatePassword toLowerCase policies storage password userInfo).issues ∨
        missingLowercaseIssue ∈
          (validatePassword toLowerCase policies storage password userInfo).issues ∨
        missingNumberIssue ∈
          (validatePassword toLowerCase policies storage password userInfo).issues ∨
        insufficientSpecialIssue policies ∈
          (validatePassword toLowerCase policies storage password userInfo).issues ∨
        commonPasswordIssue ∈
          (validatePassword toLowerCase policies storage password userInfo).issues ∨
        personalInfoIssue ∈
          (validatePassword toLowerCase policies storage password userInfo).issues) →
      (validatePassword toLowerCase policies storage password userInfo).suggestions ≠ []) := by
  have hsub : ((if missingUppercaseIssue ∈
          (validatePassword toLowerCase policies storage password userInfo).issues
        then [js "Add at least one uppercase letter (A-Z)"] else []) ++
      (if missingLowercaseIssue ∈
          (validatePassword toLowerCase policies storage password userInfo).issues
        then [js "Add at least one lowercase letter (a-z)"] else []) ++
      (if missingNumberIssue ∈
          (validatePassword toLowerCase policies storage password userInfo).issues
        then [js "Include at least one number (0-9)"] else []) ++
      (if insufficientSpecialIssue policies ∈
          (validatePassword toLowerCase policies storage password userInfo).issues
        then [js "Add special characters like: !@#$%^&*()..."] else []) ++
      (if commonPasswordIssue ∈
          (validatePassword toLowerCase policies storage password userInfo).issues
        then [js "Avoid common passwords and dictionary words",
          js "Create a unique combination of words and characters"] else []) ++
      (if personalInfoIssue ∈
          (validatePassword toLowerCase policies storage password userInfo).issues
        then [js "Avoid using your name, email, or other personal information"]
        else [])).Sublist
        (validatePassword toLowerCase policies storage password userInfo).suggestions := by
    rw [validatePassword_suggestions, generateSuggestions_eq]
    exact ((((((List.sublist_append_of_sublist_right
      (option_sublist _ _ [js "Add at least one uppercase letter (A-Z)"]
        (fun h => any_includes_of_mem
          (validatePassword toLowerCase policies storage password userInfo).issues
          missingUppercaseIssue (js "uppercase") h (by decide)))).append
      (option_sublist _ _ [js "Add at least one lowercase letter (a-z)"]
        (fun h => any_includes_of_mem
          (validatePassword toLowerCase policies storage password userInfo).issues
          missingLowercaseIssue (js "lowercase") h (by decide)))).append
      (option_sublist _ _ [js "Include at least one number (0-9)"]
        (fun h => any_includes_of_mem
          (validatePassword toLowerCase policies storage password userInfo).issues
          missingNumberIssue (js "number") h (by decide)))).append
      (option_sublist _ _ [js "Add special characters like: !@#$%^&*()..."]
        (fun h => any_includes_of_mem
          (validatePassword toLowerCase policies storage password userInfo).issues
          (insufficientSpecialIssue policies) (js "special") h
          (insufficientSpecialIssue_keyword policies)))).append
      (option_sublist _ _ [js "Avoid common passwords and dictionary words",
          js "Create a unique combination of words and characters"]
        (fun h => any_includes_of_mem
          (validatePassword toLowerCase policies storage password userInfo).issues
          commonPasswordIssue (js "common") h (by decide)))).append
      (option_sublist _ _ [js "Avoid using your name, email, or other personal information"]
        (fun h => any_includes_of_mem
          (validatePassword toLowerCase policies storage password userInfo).issues
          personalInfoIssue (js "personal") h (by decide))))
  refine ⟨hsub, fun hany hnil => ?_⟩
  rw [hnil, List.sublist_nil] at hsub
  rcases hany with h | h | h | h | h | h <;> simp [h] at hsub

/-- Witness of C22 (amended): under the default policy `12345678` misses
the uppercase letter, so the suggestion list is not empty. -/
theorem C22_suggestions_follow_issues_witness :
    (validatePassword asciiToLowerCase defaultPolicies emptyStorage (js "12345678")
      {}).suggestions ≠ [] :=
  (C22_suggestions_follow_issues asciiToLowerCase defaultPolicies emptyStorage (js "12345678")
    {}).2 (Or.inl (by decide))

/-- C23, as stated, fails. With `preventReuse = 0` and a stored history of
`alice` that holds `C0rrect-Horse-Battery99!!`, `validatePassword` reports
the password-reused issue for that password. -/
theorem C23_reuse_reported_with_window_zero :
    ({ defaultPolicies with preventReuse := 0 } : Policies).preventReuse = 0 ∧
      passwordReusedIssue { defaultPolicies with preventReuse := 0 } ∈
        (validatePassword asciiToLowerCase { defaultPolicies with preventReuse := 0 }
          (setPasswordHistory emptyStorage (js "alice") [js "C0rrect-Horse-Battery99!!"])
          (js "C0rrect-Horse-Battery99!!") { userId := some (js "alice") }).issues := by
  decide

/-- C23, amended. `validatePassword` reports the password-reused issue
exactly when the identity has a non-empty `userId` and the candidate is
equal to some entry of the history stored for it, whatever `preventReuse`
is; so an identity with no `userId` or with an empty history never gets
it. -/
theorem C23_reuse_reported_iff (toLowerCase : JSString → JSString) (policies : Policies)
    (storage : LocalStorage) (password : JSString) (userInfo : UserInfo) :
    (passwordReusedIssue policies ∈
        (validatePassword toLowerCase policies storage password userInfo).issues ↔
      ∃ u, userInfo.userId = some u ∧ u ≠ [] ∧ password ∈ getPasswordHistory storage u) ∧
    (userInfo.userId = none →
      passwordReusedIssue policies ∉
        (validatePassword toLowerCase policies storage password userInfo).issues) ∧
    (∀ u, userInfo.userId = some u → getPasswordHistory storage u = [] →
      passwordReusedIssue policies ∉
        (validatePassword toLowerCase policies storage password userInfo).issues) := by
  have hiff : passwordReusedIssue policies ∈
      (validatePassword toLowerCase policies storage password userInfo).issues ↔
      ∃ u, userInfo.userId = some u ∧ u ≠ [] ∧ password ∈ getPasswordHistory storage u := by
    rw [passwordReusedIssue_mem_iff, isPasswordReused_iff]
  refine ⟨hiff, fun hnone hmem => ?_, fun u hu hempty hmem => ?_⟩
  · obtain ⟨u, hu, -, -⟩ := hiff.mp hmem
    rw [hnone] at hu
    cases hu
  · obtain ⟨v, hv, -, hin⟩ := hiff.mp hmem
    rw [hu] at hv
    cases hv
    rw [hempty] at hin
    simp at hin

/-- Witness of C23 (amended): under the default policy, with no `userId`
nothing is reported, and for `alice` with an empty history nothing is
reported either. -/
theorem C23_reuse_reported_iff_witness :
    passwordReusedIssue defaultPolicies ∉
        (validatePassword asciiToLowerCase defaultPolicies
          (setPasswordHistory emptyStorage (js "alice") [js "secret"]) (js "secret") {}).issues ∧
      passwordReusedIssue defaultPolicies ∉
        (validatePassword asciiToLowerCase defaultPolicies emptyStorage (js "secret")
          { userId := some (js "alice") }).issues :=
  ⟨(C23_reuse_reported_iff asciiToLowerCase defaultPolicies
      (setPasswordHistory emptyStorage (js "alice") [js "secret"]) (js "secret") {}).2.1 rfl,
   (C23_reuse_reported_iff asciiToLowerCase defaultPolicies emptyStorage (js "secret")
      { userId := some (js "alice") }).2.2 (js "alice") rfl rfl⟩

/-- C24. For every policy accepted by `validatePolicies`, every requested
length `L` with `minLength ≤ L` (the bound `L ≤ maxLength` is not needed) and
every outcome of the random draws and of the shuffle, which is a
permutation, `generateSecurePassword(L)` has exactly `L` characters and holds
at least one character of each class the policy requires: an uppercase
letter, a lowercase letter, a digit, a character of the special set. -/
theorem C24_generated_length_and_classes (policies : Policies) (rand : Nat → Nat)
    (shuffle : JSString → JSString) (L : Int) (hshuffle : ∀ s, (shuffle s).Perm s)
    (hpolicy : (validatePolicies policies).isValid = true) (hmin : policies.minLength ≤ L) :
    ((generateSecurePassword rand shuffle L).length : Int) = L ∧
      (policies.requireUppercase = true →
        ∃ c ∈ generateSecurePassword rand shuffle L, 65 ≤ c.val ∧ c.val ≤ 90) ∧
      (policies.requireLowercase = true →
        ∃ c ∈ generateSecurePassword rand shuffle L, 97 ≤ c.val ∧ c.val ≤ 122) ∧
      (policies.requireNumbers = true →
        ∃ c ∈ generateSecurePassword rand shuffle L, 48 ≤ c.val ∧ c.val ≤ 57) ∧
      (policies.requireSpecialChars = true →
        ∃ c ∈ generateSecurePassword rand shuffle L, c ∈ specialChars) := by
  obtain ⟨-, h8, -, -⟩ := (validatePolicies_isValid_iff policies).mp hpolicy
  obtain ⟨hlen, -⟩ := generateSecurePassword_spec rand shuffle L hshuffle
  obtain ⟨-, ⟨cU, hU1, hU2⟩, ⟨cL, hL1, hL2⟩, ⟨cD, hD1, hD2⟩, hS⟩ :=
    generateSecurePassword_units rand shuffle L hshuffle
  exact ⟨by rw [hlen]; omega, fun _ => ⟨cU, hU1, mem_uppercase_iff cU hU2⟩,
    fun _ => ⟨cL, hL1, mem_lowercase_iff cL hL2⟩, fun _ => ⟨cD, hD1, mem_numbers_iff cD hD2⟩,
    fun _ => hS⟩

/-- Witness of C24: the default policy, which `validatePolicies` accepts,
length 16, every draw yielding index 0 and a shuffle that reverses the
string. -/
theorem C24_generated_length_and_classes_witness :
    ((generateSecurePassword (fun _ => 0) List.reverse 16).length : Int) = 16 ∧
      ∃ c ∈ generateSecurePassword (fun _ => 0) List.reverse 16, c ∈ specialChars :=
  ⟨(C24_generated_length_and_classes defaultPolicies (fun _ => 0) List.reverse 16
      (fun s => List.reverse_perm s) (by decide) (by decide)).1,
   (C24_generated_length_and_classes defaultPolicies (fun _ => 0) List.reverse 16
      (fun s => List.reverse_perm s) (by decide) (by decide)).2.2.2.2 rfl⟩

/-- C25, as stated, fails. Under the policy that does not require special
characters the generated password `Aa0!AAAAAAAAAAAA` holds `!`, which is in
none of the alphabets of the required classes. -/
theorem C25_special_drawn_when_not_required :
    ({ defaultPolicies with requireSpecialChars := false } : Policies).requireSpecialChars
        = false ∧
      generateSecurePassword (fun _ => 0) id 16 = js "Aa0!AAAAAAAAAAAA" ∧
      (33 : CodeUnit) ∈ generateSecurePassword (fun _ => 0) id 16 ∧
      (33 : CodeUnit) ∈ specialChars ∧
      (33 : CodeUnit) ∉ uppercase ++ lowercase ++ numbers := by
  decide

/-- C25, amended. For every outcome of the random draws, every character of
the password produced by `generateSecurePassword` belongs to the union of the
four alphabets (uppercase, lowercase, digits, special set), and the password
holds a character of the special set, whatever the policy requires. -/
theorem C25_generated_units_in_alphabets (rand : Nat → Nat) (shuffle : JSString → JSString)
    (L : Int) (hshuffle : ∀ s, (shuffle s).Perm s) :
    (∀ c ∈ generateSecurePassword rand shuffle L,
        c ∈ uppercase ++ lowercase ++ numbers ++ specialChars) ∧
      ∃ c ∈ generateSecurePassword rand shuffle L, c ∈ specialChars := by
  obtain ⟨hall, -, -, -, hS⟩ := generateSecurePassword_units rand shuffle L hshuffle
  exact ⟨hall, hS⟩

/-- Witness of C25 (amended): length 12 with an order-preserving shuffle. -/
theorem C25_generated_units_in_alphabets_witness :
    ∃ c ∈ generateSecurePassword (fun k => 3 * k) id 12, c ∈ specialChars :=
  (C25_generated_units_in_alphabets (fun k => 3 * k) id 12 (fun s => List.Perm.refl s)).2

/-- C26, as stated, fails. Under the default policy (`minLength = 12`) the
request for 6 characters raises nothing and returns the 6-character password
`Aa0!AA`. -/
theorem C26_short_request_returns_password :
    (6 : Int) < defaultPolicies.minLength ∧
      generateSecurePassword (fun _ => 0) id 6 = js "Aa0!AA" ∧
      (generateSecurePassword (fun _ => 0) id 6).length = 6 := by
  decide

/-- C26, amended. For every policy and every requested length `L`, also one
below `minLength`, `generateSecurePassword` raises no error and returns a
password of `max(L, 4)` characters; the policy is not consulted. -/
theorem C26_generator_is_total (rand : Nat → Nat) (shuffle : JSString → JSString) (L : Int)
    (hshuffle : ∀ s, (shuffle s).Perm s) :
    ((generateSecurePassword rand shuffle L).length : Int) = max L 4 ∧
      generateSecurePassword rand shuffle L ≠ [] := by
  obtain ⟨hlen, -⟩ := generateSecurePassword_spec rand shuffle L hshuffle
  refine ⟨hlen, fun h => ?_⟩
  rw [h] at hlen
  simp at hlen
  omega

/-- Witness of C26 (amended): the request for 6 characters with a reversing
shuffle. -/
theorem C26_generator_is_total_witness :
    ((generateSecurePassword (fun _ => 0) List.reverse 6).length : Int) = max 6 4 :=
  (C26_generator_is_total (fun _ => 0) List.reverse 6 (fun s => List.reverse_perm s)).1

/-- C27. With `preventReuse = k ≥ 0`, `saveNewPassword(identity, p)` leaves
the stored history equal to the first `k` elements of `p` followed by the
old history `h` (so its length is at most `k`, and `p` is at the front when
`k ≥ 1`), and the stored change count equal to `c + 1`, where `c` is the old
count, or to 1 when no password record existed. -/
theorem C27_saveNewPassword_history_and_count (policies : Policies) (storage : LocalStorage)
    (now : Int) (userId password : JSString) (k : Nat)
    (hk : policies.preventReuse = (k : Int)) :
    getPasswordHistory (saveNewPassword policies storage now userId password) userId =
        (password :: getPasswordHistory storage userId).take k ∧
      (getPasswordHistory (saveNewPassword policies storage now userId password) userId).length
        ≤ k ∧
      (1 ≤ k →
        (getPasswordHistory (saveNewPassword policies storage now userId password) userId).head?
          = some password) ∧
      (∀ info, getPasswordInfo storage userId = some info →
        getPasswordInfo (saveNewPassword policies storage now userId password) userId =
          some { lastChanged := now, changeCount := info.changeCount + 1 }) ∧
      (getPasswordInfo storage userId = none →
        getPasswordInfo (saveNewPassword policies storage now userId password) userId =
          some { lastChanged := now, changeCount := 1 }) := by
  have hhist : getPasswordHistory (saveNewPassword policies storage now userId password) userId =
      (password :: getPasswordHistory storage userId).take k := by
    unfold saveNewPassword
    simp only [getPasswordHistory_setPasswordInfo]
    exact getPasswordHistory_addToPasswordHistory policies storage userId password k hk
  refine ⟨hhist, ?_, fun h1 => ?_, fun info hinfo => ?_, fun hnone => ?_⟩
  · rw [hhist, List.length_take]
    exact Nat.min_le_left _ _
  · rw [hhist]
    obtain ⟨m, rfl⟩ : ∃ m, k = m + 1 := ⟨k - 1, by omega⟩
    rfl
  · unfold saveNewPassword
    simp only [getPasswordInfo_setPasswordInfo, getPasswordInfo_addToPasswordHistory, hinfo]
  · unfold saveNewPassword
    simp only [getPasswordInfo_setPasswordInfo, getPasswordInfo_addToPasswordHistory, hnone]
    rfl

/-- Witness of C27: under the default policy (window 5) `alice`, who has
the history `old` and no password record, saves `new`. -/
theorem C27_saveNewPassword_history_and_count_witness :
    getPasswordHistory
        (saveNewPassword defaultPolicies
          (setPasswordHistory emptyStorage (js "alice") [js "old"]) 7 (js "alice") (js "new"))
        (js "alice") = [js "new", js "old"] ∧
      getPasswordInfo
        (saveNewPassword defaultPolicies
          (setPasswordHistory emptyStorage (js "alice") [js "old"]) 7 (js "alice") (js "new"))
        (js "alice") = some { lastChanged := 7, changeCount := 1 } :=
  ⟨(C27_saveNewPassword_history_and_count defaultPolicies
      (setPasswordHistory emptyStorage (js "alice") [js "old"]) 7 (js "alice") (js "new") 5
      (by decide)).1,
   (C27_saveNewPassword_history_and_count defaultPolicies
      (setPasswordHistory emptyStorage (js "alice") [js "old"]) 7 (js "alice") (js "new") 5
      (by decide)).2.2.2.2 (by decide)⟩

/-- C28, as stated, fails. With `preventReuse = 0` and `minSpecialChars = 1`
the password `C0rrect-Horse-Battery99!!`, stored in the history of `alice`,
violates no rule of the sequence (the reuse check applies only when
`preventReuse > 0`), yet the issue list holds the password-reused issue. And
under the default policy `Sup3r!Secret#Pass`, which holds the two special
characters the policy asks for, violates no rule, yet the issue list holds
the insufficient-special-characters issue. -/
theorem C28_issue_for_rule_not_violated :
    violatedRules asciiToLowerCase { defaultPolicies with minSpecialChars := 1, preventReuse := 0 }
        (setPasswordHistory emptyStorage (js "alice") [js "C0rrect-Horse-Battery99!!"])
        (js "C0rrect-Horse-Battery99!!") { userId := some (js "alice") } = [] ∧
      (validatePassword asciiToLowerCase
        { defaultPolicies with minSpecialChars := 1, preventReuse := 0 }
        (setPasswordHistory emptyStorage (js "alice") [js "C0rrect-Horse-Battery99!!"])
        (js "C0rrect-Horse-Battery99!!") { userId := some (js "alice") }).issues =
        [js "Password cannot be one of your last 0 passwords"] ∧
      specialCharsIn (js "Sup3r!Secret#Pass") = 2 ∧
      violatedRules asciiToLowerCase defaultPolicies emptyStorage (js "Sup3r!Secret#Pass") {}
        = [] ∧
      (validatePassword asciiToLowerCase defaultPolicies emptyStorage (js "Sup3r!Secret#Pass")
        {}).issues = [js "Password must contain at least 2 special characters"] := by
  decide

/-- C28, amended. `validatePassword` runs every check without
short-circuiting: for every password, identity and policy the returned issue
list is, in this order, the violated rules among too short, too long, missing
uppercase, missing lowercase and missing number, then at most the
insufficient-special-characters issue (only under a policy that requires
special characters), then the violated rules among common password and
personal information, then the password-reused issue, which is present
exactly when the identity has a non-empty `userId` whose stored history
holds the candidate, whatever `preventReuse` is. An earlier violation never
hides a later one. -/
theorem C28_issues_are_violated_rules (toLowerCase : JSString → JSString)
    (policies : Policies) (storage : LocalStorage) (password : JSString)
    (userInfo : UserInfo) :
    ∃ special reused : List JSString,
      (special = [] ∨
        (policies.requireSpecialChars = true ∧
          special = [insufficientSpecialIssue policies])) ∧
      ((reused = [passwordReusedIssue policies] ∧
          ∃ u, userInfo.userId = some u ∧ u ≠ [] ∧ password ∈ getPasswordHistory storage u) ∨
        (reused = [] ∧
          ¬ ∃ u, userInfo.userId = some u ∧ u ≠ [] ∧
            password ∈ getPasswordHistory storage u)) ∧
      (validatePassword toLowerCase policies storage password userInfo).issues =
        violatedLengthAndClassRules policies password ++ special ++
          violatedContentRules toLowerCase policies password userInfo ++ reused := by
  refine ⟨_, _, ?_, ?_, validatePassword_issues_split toLowerCase policies storage password
    userInfo⟩
  · by_cases h : policies.requireSpecialChars = true ∧
        (specialCharCount password : Int) < policies.minSpecialChars
    · exact Or.inr ⟨h.1, if_pos h⟩
    · exact Or.inl (if_neg h)
  · cases h : isPasswordReused storage password userInfo.userId with
    | true => exact Or.inl ⟨rfl, (isPasswordReused_iff _ _ _).mp h⟩
    | false =>
      refine Or.inr ⟨rfl, fun hex => ?_⟩
      rw [(isPasswordReused_iff _ _ _).mpr hex] at h
      cases h

/-- C29, as stated, fails. The policy that requires no character class is
accepted by `validatePolicies`; under it the password of twelve dashes gets
no issue, the score 25 and `isValid = false`. -/
theorem C29_floor_changes_verdict :
    (validatePolicies { noClassPolicies with requireSpecialChars := false }).isValid = true ∧
      (validatePassword asciiToLowerCase { noClassPolicies with requireSpecialChars := false }
        emptyStorage (js "------------") {}).issues = [] ∧
      (validatePassword asciiToLowerCase { noClassPolicies with requireSpecialChars := false }
        emptyStorage (js "------------") {}).score = 25 ∧
      (validatePassword asciiToLowerCase { noClassPolicies with requireSpecialChars := false }
        emptyStorage (js "------------") {}).isValid = false := by
  decide

/-- C29, amended. For every policy whose numeric fields are integers, as
in the specification's data model (a field that the form left empty and
`parseInt` read as `NaN` is not an integer and is excluded), and whose
required classes are worth at least 40 points (15 each for uppercase,
lowercase and numbers, 20 for special characters: for instance a policy that
requires uppercase, lowercase and numbers), and for every password and
identity: if `validatePassword` returns an empty issue list then the score is
at least 60, so `isValid` is true exactly when the issue list is empty. -/
theorem C29_floor_never_binds (toLowerCase : JSString → JSString) (policies : Policies)
    (storage : LocalStorage) (password : JSString) (userInfo : UserInfo)
    (hreq : (if policies.requireUppercase then (15 : Int) else 0) +
        (if policies.requireLowercase then 15 else 0) +
        (if policies.requireNumbers then 15 else 0) +
        (if policies.requireSpecialChars then 20 else 0) ≥ 40) :
    ((validatePassword toLowerCase policies storage password userInfo).issues = [] →
        (validatePassword toLowerCase policies storage password userInfo).score ≥ 60) ∧
      ((validatePassword toLowerCase policies storage password userInfo).isValid = true ↔
        (validatePassword toLowerCase policies storage password userInfo).issues = []) := by
  have hscore : (validatePassword toLowerCase policies storage password userInfo).issues = [] →
      (validatePassword toLowerCase policies storage password userInfo).score ≥ 60 := by
    intro h
    obtain ⟨h1, h3, h4, h5, h6⟩ := issues_nil_facts _ _ _ _ _ h
    obtain ⟨hb, -⟩ := calculateComplexityBonus_bounds toLowerCase password
    rw [validatePassword_score, if_pos h1]
    have hU : (if policies.requireUppercase then (15 : Int) else 0) ≤
        (if regexTest upperClass password then 15 else 0) := by
      cases hr : policies.requireUppercase with
      | false => cases regexTest upperClass password <;> simp
      | true => rw [h3 hr]
    have hL : (if policies.requireLowercase then (15 : Int) else 0) ≤
        (if regexTest lowerClass password then 15 else 0) := by
      cases hr : policies.requireLowercase with
      | false => cases regexTest lowerClass password <;> simp
      | true => rw [h4 hr]
    have hD : (if policies.requireNumbers then (15 : Int) else 0) ≤
        (if regexTest digitClass password then 15 else 0) := by
      cases hr : policies.requireNumbers with
      | false => cases regexTest digitClass password <;> simp
      | true => rw [h5 hr]
    have hS : (if policies.requireSpecialChars then (20 : Int) else 0) ≤
        (if policies.requireSpecialChars = true ∧
          policies.minSpecialChars ≤ (specialCharCount password : Int) then 20 else 0) := by
      cases hr : policies.requireSpecialChars with
      | false => simp
      | true =>
        have h6' := h6 hr
        simp [h6']
    omega
  refine ⟨hscore, ?_⟩
  rw [validatePassword_isValid]
  exact ⟨fun h => h.1, fun h => ⟨h, hscore h⟩⟩

/-- Witness of C29 (amended): the default policy with `minSpecialChars = 1`
and the password `C0rrect-Horse-Battery99!!`, which gets no issue. -/
theorem C29_floor_never_binds_witness :
    (validatePassword asciiToLowerCase { defaultPolicies with minSpecialChars := 1 } emptyStorage
        (js "C0rrect-Horse-Battery99!!") {}).score ≥ 60 :=
  (C29_floor_never_binds asciiToLowerCase { defaultPolicies with minSpecialChars := 1 }
    emptyStorage (js "C0rrect-Horse-Battery99!!") {} (by decide)).1 (by decide)

/-- C30. The class built from `escapeRegex(specialChars)` matches the
special set and also the slash and the ten digits, through the range from
`+` to `=`; so under the default policy with `minSpecialChars = 1` the
password `Correct0HorseBattery`, made of letters and one digit, gets no
insufficient-special-characters issue and is valid. -/
theorem C30_digits_match_special_class :
    (∀ c : CodeUnit, inClass specialCharRegex c = true ↔
      c ∈ specialChars ∨ c.val = 47 ∨ (48 ≤ c.val ∧ c.val ≤ 57)) ∧
    (43, 61) ∈ specialCharRegex ∧
    inClass specialCharRegex 48 = true ∧ (48 : CodeUnit) ∉ specialChars ∧
    (js "Correct0HorseBattery").all (fun c => decide (c ∉ specialChars)) = true ∧
    ({ defaultPolicies with minSpecialChars := 1 } : Policies).requireSpecialChars = true ∧
    insufficientSpecialIssue { defaultPolicies with minSpecialChars := 1 } ∉
      (validatePassword asciiToLowerCase { defaultPolicies with minSpecialChars := 1 }
        emptyStorage (js "Correct0HorseBattery") {}).issues ∧
    (validatePassword asciiToLowerCase { defaultPolicies with minSpecialChars := 1 }
      emptyStorage (js "Correct0HorseBattery") {}).isValid = true := by
  refine ⟨inClass_specialCharRegex_iff, ?_, ?_, ?_, ?_, ?_, ?_, ?_⟩ <;> decide

end PasswordSecurity
